import Mathlib

/-!
Verification development for the routing-node core (src/src/routing_node.rs).

The embedding translates the RoutingNode state machine and its ingress
pipeline into executable Lean definitions.  External collaborators of the
core (the routing-table data structure, message filters, accumulators, the
data cache, the serialization codec and the cryptographic primitives) are
not part of the repository source; where their behaviour matters they are
modelled from the natural-language specification, and each such definition
carries a doc comment saying so.  Machine integers (the u32 connection
counter) are modelled as Nat with explicit reduction modulo 2^32.
Side-effects (crust sends, dropped connections, initiated connects and user
events) are collected in explicit output lists, and the two places where
the source aborts the process are recorded in an aborted flag.
-/

namespace Routing

/-- 512-bit opaque name.  Modelled as a natural number; XOR distance is
Nat.xor compared as unsigned integers. -/
abbrev NameType := Nat

/-- Signing public key, modelled symbolically as a numeric key identity
(the matching secret key is the same number). -/
abbrev PublicKey := Nat

/-- Opaque crust connection handle. -/
abbrev Connection := Nat

/-- Opaque crust endpoint. -/
abbrev Endpoint := Nat

/-- types::Address - the claimant of every signed message. -/
inductive Address where
  | node (name : NameType)
  | client (key : PublicKey)
deriving DecidableEq, Repr

/-- authority::Authority.  Modelled from the spec: the repository consumes
authority.rs as a collaborator; variants ending in Manager are group
authorities. -/
inductive Authority where
  | client (proxy : NameType) (key : PublicKey)
  | managedNode (name : NameType)
  | naeManager (name : NameType)
  | clientManager (name : NameType)
  | nodeManager (name : NameType)
deriving DecidableEq, Repr

/-- Modelled from the spec: authorities ending in Manager are group
authorities (require quorum); others are single-node authorities. -/
def Authority.isGroup : Authority → Bool
  | .client .. => false
  | .managedNode _ => false
  | .naeManager _ => true
  | .clientManager _ => true
  | .nodeManager _ => true

/-- Modelled from the spec: the name a destination authority addresses. -/
def Authority.getLocation : Authority → NameType
  | .client proxy _ => proxy
  | .managedNode n => n
  | .naeManager n => n
  | .clientManager n => n
  | .nodeManager n => n

/-- Modelled from the spec: single-node authorities identify one address,
group authorities identify none. -/
def Authority.getAddress : Authority → Option Address
  | .client _ k => some (.client k)
  | .managedNode n => some (.node n)
  | .naeManager _ => none
  | .clientManager _ => none
  | .nodeManager _ => none

/-- public_id::PublicId - modelled from the spec (the collaborator source
is not in the repository): a name, a signing public key, and a node flag
set once a relocated name is assigned. -/
structure PublicId where
  name : NameType
  signKey : PublicKey
  isNodeFlag : Bool
deriving DecidableEq, Repr

def PublicId.isNode (p : PublicId) : Bool := p.isNodeFlag

def PublicId.setName (p : PublicId) (n : NameType) : PublicId := { p with name := n }

def PublicId.assignRelocatedName (p : PublicId) (n : NameType) : PublicId :=
  { p with name := n, isNodeFlag := true }

/-- id::Id - modelled from the spec: a long-term key pair and a name that
is mutable exactly once (relocation).  The name of an unrelocated identity
is the hash of the signing public key. -/
structure Id where
  key : Nat
  name : NameType
  relocatedFlag : Bool
deriving DecidableEq, Repr

def Id.signingPublicKey (i : Id) : PublicKey := i.key

def Id.isNode (i : Id) : Bool := i.relocatedFlag

/-- Modelled from the spec: the one-shot name replacement; returns false
if the identity was already relocated. -/
def Id.assignRelocatedName (i : Id) (n : NameType) : Bool × Id :=
  if i.relocatedFlag then (false, i)
  else (true, { i with name := n, relocatedFlag := true })

def PublicId.new (i : Id) : PublicId :=
  { name := i.name, signKey := i.key, isNodeFlag := i.relocatedFlag }

/-- Kinds of cacheable data carried by external requests and responses. -/
inductive DataKind where
  | structured
  | plain
  | immutable
deriving DecidableEq, Repr

mutual
/-- messages::Content. External request and response payloads are flattened
to a cache key, a data kind and an opaque payload. -/
inductive Content where
  | externalRequest (key : Nat) (kind : DataKind)
  | externalResponse (key : Nat) (kind : DataKind) (payload : Nat) (token : OptToken)
  | internalRequest (req : InternalRequest)
  | internalResponse (resp : InternalResponse)

/-- messages::InternalRequest.  The refresh payload bytes are opaque. -/
inductive InternalRequest where
  | requestNetworkName (pid : PublicId)
  | relocatedNetworkName (pid : PublicId) (token : SignedToken)
  | connect (endpoints : List Endpoint) (pid : PublicId)
  | refresh (tag : Nat) (bytes : Nat) (cause : NameType)

/-- messages::InternalResponse. -/
inductive InternalResponse where
  | relocatedNetworkName (pid : PublicId) (closeGroup : List PublicId) (token : SignedToken)
  | connect (endpoints : List Endpoint) (pid : PublicId) (token : SignedToken)

/-- messages::RoutingMessage - (from_authority, to_authority, content). -/
inductive RoutingMessage where
  | mk (fromAuthority : Authority) (toAuthority : Authority) (content : Content)

/-- messages::SignedToken - the claimant-signed serialized routing message.
The codec is injective, so the serialized request is modelled by the
routing message itself, and the detached signature by the signing key. -/
inductive SignedToken where
  | mk (request : RoutingMessage) (signerKey : Nat)

/-- Option of SignedToken, spelled as a mutual inductive so the message
grammar stays a plain mutual family. -/
inductive OptToken where
  | noneT
  | someT (t : SignedToken)
end

deriving instance DecidableEq for Content, InternalRequest, InternalResponse, RoutingMessage, SignedToken, OptToken

def RoutingMessage.fromAuthority : RoutingMessage → Authority
  | .mk f _ _ => f

def RoutingMessage.toAuthority : RoutingMessage → Authority
  | .mk _ t _ => t

def RoutingMessage.content : RoutingMessage → Content
  | .mk _ _ c => c

/-- RoutingMessage::source. -/
def RoutingMessage.source (m : RoutingMessage) : Authority := m.fromAuthority

/-- RoutingMessage::destination. -/
def RoutingMessage.destination (m : RoutingMessage) : Authority := m.toAuthority

def SignedToken.request : SignedToken → RoutingMessage
  | .mk r _ => r

def SignedToken.signerKey : SignedToken → Nat
  | .mk _ k => k

/-- Modelled from the spec: signature verification succeeds exactly when
the token was produced with the matching key. -/
def SignedToken.verifySignature (t : SignedToken) (k : PublicKey) : Bool :=
  t.signerKey == k

/-- messages::SignedMessage - routing message, claimant and signature. -/
structure SignedMessage where
  claimant : Address
  message : RoutingMessage
  signerKey : Nat
deriving DecidableEq

def SignedMessage.getRoutingMessage (sm : SignedMessage) : RoutingMessage := sm.message

/-- SignedMessage::as_token (always succeeds in the model: the codec is
total on the message grammar). -/
def SignedMessage.asToken (sm : SignedMessage) : SignedToken := .mk sm.message sm.signerKey

/-- SignedMessage::new_from_token: reconstruct the signed message from the
serialized bytes held in the token. -/
def SignedMessage.newFromToken (t : SignedToken) : SignedMessage :=
  { claimant := .client t.signerKey, message := t.request, signerKey := t.signerKey }

/-- SignedMessage::new - sign a routing message with a secret key. -/
def SignedMessage.new (claimant : Address) (m : RoutingMessage) (secretKey : Nat) :
    SignedMessage :=
  { claimant := claimant, message := m, signerKey := secretKey }

/-- direct_messages content: either an identify with a public id, or a
churn carrying a close group. -/
inductive DirectContent where
  | identify (pid : PublicId)
  | churnMsg (closeGroup : List NameType)
deriving DecidableEq

/-- direct_messages::DirectMessage with its symbolic signature. -/
structure DirectMessage where
  content : DirectContent
  signerKey : Nat
deriving DecidableEq

def DirectMessage.verifySignature (dm : DirectMessage) (k : PublicKey) : Bool :=
  dm.signerKey == k

def DirectMessage.newIdentify (pid : PublicId) (secretKey : Nat) : DirectMessage :=
  { content := .identify pid, signerKey := secretKey }

/-- Bytes on the wire, decoded: the codec is injective so a frame is either
a signed message, a direct message, or unparseable garbage. -/
inductive Wire where
  | signedMsg (sm : SignedMessage)
  | directMsg (dm : DirectMessage)
  | garbage
deriving DecidableEq

/-- routing_node::State. -/
inductive State where
  | disconnected
  | bootstrapped
  | relocated
  | connected
  | groupConnected
  | terminated
deriving DecidableEq, Repr

/-- error::RoutingError (the variants the core constructs). -/
inductive RoutingError where
  | filterCheckFailed
  | badAuthority
  | notEnoughSignatures
  | unknownMessageType
  | failedSignature
  | refusedFromRoutingTable
  | notBootstrapped
  | terminated
  | invalidStateForOperation
deriving DecidableEq, Repr

abbrev Res := Except RoutingError Unit

/-- data_cache_options::DataCacheOptions - per-data-kind caching switches.
Modelled from the spec. -/
structure DataCacheOptions where
  structuredData : Bool
  plainData : Bool
  immutableData : Bool
deriving DecidableEq, Repr

def DataCacheOptions.enabledFor (o : DataCacheOptions) : DataKind → Bool
  | .structured => o.structuredData
  | .plain => o.plainData
  | .immutable => o.immutableData

/-- Association-list insert used for the HashMap and LruCache collaborators:
returns the previous value for the key, mirroring HashMap::insert. -/
def mapInsert {α β : Type} [DecidableEq α] (k : α) (v : β) :
    List (α × β) → Option β × List (α × β)
  | [] => (none, [(k, v)])
  | e :: rest =>
    if e.1 = k then (some e.2, (k, v) :: rest)
    else
      let (old, rest') := mapInsert k v rest
      (old, e :: rest')

def mapLookup {α β : Type} [DecidableEq α] (k : α) : List (α × β) → Option β
  | [] => none
  | e :: rest => if e.1 = k then some e.2 else mapLookup k rest

def mapRemove {α β : Type} [DecidableEq α] (k : α) (m : List (α × β)) : List (α × β) :=
  m.filter (fun e => decide (e.1 ≠ k))

/-- message_filter::MessageFilter - modelled from the spec as a bounded-time
set; expiry is not modelled, the claims all concern behaviour within the
filter window.  Adding an element is idempotent on the membership view. -/
def filterAdd {α : Type} [DecidableEq α] (x : α) (f : List α) : List α :=
  if x ∈ f then f else x :: f

/-- accumulator::Accumulator - modelled from the spec: quorum collection of
identical group messages.  Each add for a routing message counts one
claimant (distinctness of the (message, claimant) pairs is enforced
upstream by the claimant message filter); the add reports whether the
count has reached the current quorum size. -/
structure Accumulator where
  quorumSize : Nat
  entries : List (RoutingMessage × Nat)
deriving DecidableEq

def Accumulator.setQuorumSize (a : Accumulator) (q : Nat) : Accumulator :=
  { a with quorumSize := q }

def Accumulator.count (a : Accumulator) (m : RoutingMessage) : Nat :=
  (mapLookup m a.entries).getD 0

def Accumulator.add (a : Accumulator) (m : RoutingMessage) : Bool × Accumulator :=
  let newCount := a.count m + 1
  (newCount ≥ a.quorumSize, { a with entries := (mapInsert m newCount a.entries).2 })

/-- refresh_accumulator::RefreshAccumulator - modelled from the spec:
payloads are bucketed by (type_tag, authority, cause) and the payload
vector is released once a distinct-sender quorum is reached; the first
arrival for an unseen bucket is reported as a new request. -/
structure RefreshAcc where
  entries : List ((Nat × Authority × NameType) × List (NameType × Nat))
deriving DecidableEq

def RefreshAcc.addMessage (acc : RefreshAcc) (threshold : Nat) (tag : Nat)
    (sender : NameType) (authority : Authority) (payload : Nat) (cause : NameType) :
    Bool × Option (List Nat) × RefreshAcc :=
  let key := (tag, authority, cause)
  let senders := (mapLookup key acc.entries).getD []
  let isNewRequest := senders.isEmpty
  let senders' :=
    if senders.any (fun e => e.1 = sender) then senders else senders ++ [(sender, payload)]
  if senders'.length ≥ threshold then
    (isNewRequest, some (senders'.map (·.2)), { entries := mapRemove key acc.entries })
  else
    (isNewRequest, none, { entries := (mapInsert key senders' acc.entries).2 })

/-- data_cache::DataCache - modelled from the spec: an opportunistic cache
of external Get responses keyed so the matching Get request finds them;
puts are gated by the per-kind cache options (all disabled by default). -/
structure DataCache where
  options : DataCacheOptions
  store : List (Nat × Content)
deriving DecidableEq

/-- DataCache::handle_cache_put - cache a response when its kind is
enabled. -/
def DataCache.put (c : DataCache) (m : RoutingMessage) : DataCache :=
  match m.content with
  | .externalResponse key kind payload tok =>
    if c.options.enabledFor kind then
      { c with store := (mapInsert key (Content.externalResponse key kind payload tok) c.store).2 }
    else c
  | _ => c

/-- DataCache::handle_cache_get - answer a request from the cache. -/
def DataCache.get (c : DataCache) (m : RoutingMessage) : Option Content :=
  match m.content with
  | .externalRequest key _ => mapLookup key c.store
  | _ => none

/-- routing_table::NodeInfo - a peer public id and its connections. -/
structure NodeInfo where
  publicId : PublicId
  connections : List Connection
deriving DecidableEq

def NodeInfo.id (ni : NodeInfo) : NameType := ni.publicId.name

def NodeInfo.new (pid : PublicId) (conns : List Connection) : NodeInfo :=
  { publicId := pid, connections := conns }

/-- Insertion of a node into a list kept sorted by XOR distance from a
name.  Used to model the proximity-ordered routing table view. -/
def insertByDistance (ourName : NameType) (ni : NodeInfo) : List NodeInfo → List NodeInfo
  | [] => [ni]
  | x :: rest =>
    if Nat.xor ourName ni.id ≤ Nat.xor ourName x.id then ni :: x :: rest
    else x :: insertByDistance ourName ni rest

def sortByDistance (ourName : NameType) (l : List NodeInfo) : List NodeInfo :=
  l.foldr (insertByDistance ourName) []

/-- routing_table::RoutingTable - modelled from the spec: the table is an
external collaborator consumed through a narrow interface (want_to_add,
add_node, drop_connection, drop_node, target_nodes, our_close_group,
address_in_our_close_group_range, size).  Capacity-driven eviction is
owned by the table and left unmodelled (add_node never evicts here). -/
structure RoutingTable where
  ourName : NameType
  nodes : List NodeInfo
deriving DecidableEq

def RoutingTable.new (ourName : NameType) : RoutingTable :=
  { ourName := ourName, nodes := [] }

def RoutingTable.size (rt : RoutingTable) : Nat := rt.nodes.length

def RoutingTable.wantToAdd (rt : RoutingTable) (n : NameType) : Bool :=
  n ≠ rt.ourName ∧ rt.nodes.all (fun ni => ni.id ≠ n)

/-- Returns (added, evicted node, new table). -/
def RoutingTable.addNode (rt : RoutingTable) (ni : NodeInfo) :
    Bool × Option NodeInfo × RoutingTable :=
  if rt.wantToAdd ni.id then (true, none, { rt with nodes := rt.nodes ++ [ni] })
  else (false, none, rt)

def RoutingTable.dropConnection (rt : RoutingTable) (c : Connection) :
    Option NameType × RoutingTable :=
  match rt.nodes.find? (fun ni => c ∈ ni.connections) with
  | some ni =>
    (some ni.id,
     { rt with nodes := rt.nodes.map (fun x =>
         if x.id = ni.id then { x with connections := x.connections.filter (· ≠ c) } else x) })
  | none => (none, rt)

def RoutingTable.dropNode (rt : RoutingTable) (n : NameType) : RoutingTable :=
  { rt with nodes := rt.nodes.filter (fun ni => decide (ni.id ≠ n)) }

/-- Modelled from the spec glossary: the GROUP_SIZE peers with smallest
XOR distance from our name. -/
def RoutingTable.ourCloseGroup (rt : RoutingTable) (groupSize : Nat) : List NodeInfo :=
  (sortByDistance rt.ourName rt.nodes).take groupSize

/-- Modelled from the spec: false when the table is empty (a non-full node
is never in range); true while the table holds fewer than GROUP_SIZE peers;
otherwise the name must be at most as far as the furthest close-group
member. -/
def RoutingTable.addressInOurCloseGroupRange (rt : RoutingTable) (groupSize : Nat)
    (name : NameType) : Bool :=
  match rt.nodes with
  | [] => false
  | _ =>
    if rt.nodes.length < groupSize then true
    else
      match (rt.ourCloseGroup groupSize).getLast? with
      | some far => Nat.xor rt.ourName name ≤ Nat.xor rt.ourName far.id
      | none => false

/-- Modelled from the spec: the peers the table proposes for parallel
forwarding toward a destination. -/
def RoutingTable.targetNodes (rt : RoutingTable) (_dest : NameType) : List NodeInfo :=
  rt.nodes

/-- event::Event - the user event surface. -/
inductive Event where
  | bootstrapped
  | connected
  | disconnected
  | churn (closeGroup : List NameType)
  | request (key : Nat) (kind : DataKind) (ourAuthority : Authority)
      (fromAuthority : Authority) (responseToken : OptToken)
  | response (key : Nat) (kind : DataKind) (payload : Nat) (token : OptToken)
      (ourAuthority : Authority) (fromAuthority : Authority)
  | failedRequest (key : Nat) (kind : DataKind) (ourAuthority : Option Authority)
      (location : Authority)
  | failedResponse (key : Nat) (kind : DataKind) (payload : Nat)
      (ourAuthority : Option Authority) (location : Authority)
  | refreshEv (tag : Nat) (authority : Authority) (payloads : List Nat)
  | doRefresh (tag : Nat) (authority : Authority) (cause : NameType)
  | terminated
deriving DecidableEq

/-- routing_node::MAX_RELAYS. -/
def MAX_RELAYS : Nat := 100

/-- The mutable state of routing_node::RoutingNode (the fields the claims
depend on; channel handles and the crust service are replaced by the
explicit output lists of Sys). -/
structure RoutingNode where
  connectionCounter : Nat
  clientRestriction : Bool
  claimantMessageFilter : List (RoutingMessage × Address)
  connectionFilter : List NameType
  publicIdCache : List (NameType × PublicId)
  messageAccumulator : Accumulator
  refreshAccumulator : RefreshAcc
  refreshCauses : List NameType
  handledMessages : List RoutingMessage
  dataCache : DataCache
  proposedRelocatedName : Option NameType
  id : Id
  state : State
  networkName : Option NameType
  routingTable : RoutingTable
  bootstrapMap : List (Connection × NameType)
  relayMap : List (PublicKey × Connection)
  acceptingOn : List Endpoint
deriving DecidableEq

/-- The node state together with the observable outputs of the run: crust
sends, dropped connections, initiated connects, user events, and the flags
for a process abort and for loop termination. -/
structure Sys where
  node : RoutingNode
  sends : List (Connection × Wire)
  drops : List Connection
  connects : List (Nat × List Endpoint)
  events : List Event
  aborted : Bool
  stopped : Bool
deriving DecidableEq

def Sys.withNode (s : Sys) (f : RoutingNode → RoutingNode) : Sys :=
  { s with node := f s.node }

def emit (e : Event) (s : Sys) : Sys := { s with events := s.events ++ [e] }

def crustSend (c : Connection) (w : Wire) (s : Sys) : Sys :=
  { s with sends := s.sends ++ [(c, w)] }

def crustDrop (c : Connection) (s : Sys) : Sys := { s with drops := s.drops ++ [c] }

def crustConnect (token : Nat) (eps : List Endpoint) (s : Sys) : Sys :=
  { s with connects := s.connects ++ [(token, eps)] }

def abortProcess (s : Sys) : Sys := { s with aborted := true }

/-- The pure external collaborators: constants from the types module, the
sha512 digest, the utils relocated-name function, and the authority
computation of authority.rs.  All are outside the repository source and
modelled from the spec as opaque parameters of the development. -/
structure Env where
  groupSize : Nat
  quorumSize : Nat
  sha512 : Nat → Nat
  calcRelocated : List NameType → NameType → NameType
  ourAuthorityFn : RoutingMessage → RoutingTable → Option Authority

/-- RoutingNode::is_node - true when the routing table has connections. -/
def RoutingNode.isNode (n : RoutingNode) : Bool := n.routingTable.size > 0

/-- RoutingNode::is_us. -/
def RoutingNode.isUs (n : RoutingNode) : Address → Bool
  | .client k => k == n.id.key
  | .node nm => nm == n.id.name

/-- RoutingNode::name_in_range. -/
def nameInRange (env : Env) (n : RoutingNode) (name : NameType) : Bool :=
  n.routingTable.addressInOurCloseGroupRange env.groupSize name

/-- RoutingNode::our_authority - the full-node case is delegated to the
authority.rs collaborator; the client case is built from the message. -/
def ourAuthorityOf (env : Env) (n : RoutingNode) (m : RoutingMessage) : Option Authority :=
  match n.networkName with
  | some _ => env.ourAuthorityFn m n.routingTable
  | none => some (.client m.destination.getLocation n.id.key)

/-- RoutingNode::our_close_group - close-group names with our own name
placed first; None when we have no network name. -/
def ourCloseGroupNames (env : Env) (n : RoutingNode) : Option (List NameType) :=
  match n.networkName with
  | some _ =>
    some (n.id.name :: (n.routingTable.ourCloseGroup env.groupSize).map (fun ni => ni.publicId.name))
  | none => none

/-- RoutingNode::routing_table_quorum_size - min(table size, QUORUM_SIZE). -/
def routingTableQuorumSize (env : Env) (n : RoutingNode) : Nat :=
  min n.routingTable.size env.quorumSize

/-- RoutingNode::get_connection_token.  The u32 counter wraps modulo 2^32.
Line 1071 of the source compares the wrapped counter with 1 instead of
assigning 1, so no reset happens when the counter wraps to zero; the
embedding reproduces that. -/
def getConnectionToken (n : RoutingNode) : Nat × RoutingNode :=
  let connectionToken := n.connectionCounter
  let counter := (n.connectionCounter + 1) % 4294967296
  (connectionToken, { n with connectionCounter := counter })

/-- RoutingNode::get_client_authority - Client authority through the first
bootstrap entry. -/
def getClientAuthority (n : RoutingNode) : Except RoutingError Authority :=
  match n.bootstrapMap with
  | [] => .error .notBootstrapped
  | e :: _ => .ok (.client e.2 n.id.key)

/-- The signed Connect request that send_connect_request produces for a
peer when the node is in a client-authority state (Bootstrapped or
Relocated) whose first bootstrap peer is named bn. -/
def connectRequestMessage (ourId : Id) (accepting : List Endpoint) (bn : NameType)
    (peerName : NameType) : SignedMessage :=
  SignedMessage.new (.client ourId.key)
    (.mk (.client bn ourId.key) (.managedNode peerName)
      (.internalRequest (.connect accepting (PublicId.new ourId))))
    ourId.key

/-- RoutingNode::identify - send our identify direct message on a
connection. -/
def identifySend (conn : Connection) (s : Sys) : Sys :=
  crustSend conn (.directMsg (DirectMessage.newIdentify (PublicId.new s.node.id)
    s.node.id.key)) s

/-- RoutingNode::assign_network_name - returns whether the name was
assigned; on success the identity is relocated, a fresh routing table is
keyed on the new name, and the state becomes Relocated. -/
def assignNetworkName (networkName : NameType) (s : Sys) : Bool × Sys :=
  let stateOk :=
    match s.node.state with
    | .disconnected => true
    | .bootstrapped => true
    | _ => false
  if !stateOk then (false, s)
  else if s.node.networkName.isSome then (false, s)
  else
    match s.node.id.assignRelocatedName networkName with
    | (false, _) => (false, s)
    | (true, id') =>
      (true, s.withNode fun n =>
        { n with id := id', routingTable := RoutingTable.new networkName,
                 networkName := some networkName, state := .relocated })

/-- RoutingNode::assign_name. -/
def assignName (name : NameType) (s : Sys) : Bool × Sys := assignNetworkName name s

/-- RoutingNode::handle_on_accept - a Disconnected node promotes itself by
adopting the hash of its current name (which is the hash of its public
key) before identifying. -/
def handleOnAccept (env : Env) (conn : Connection) (s : Sys) : Sys :=
  let s :=
    match s.node.state with
    | .disconnected =>
      let newName := env.sha512 s.node.id.name
      (assignName newName s).2
    | _ => s
  identifySend conn s

/-- RoutingNode::add_client.  The source warns and drops the connection
when the relay map is full but then falls through and inserts anyway, and
its match arms treat a fresh insert (None) as the failure case; the
embedding reproduces both. -/
def addClient (conn : Connection) (pid : PublicId) (s : Sys) : Sys :=
  let s := if s.node.relayMap.length = MAX_RELAYS then crustDrop conn s else s
  let (old, relayMap') := mapInsert pid.signKey conn s.node.relayMap
  let s := s.withNode ({ · with relayMap := relayMap' })
  match old with
  | some _ => s
  | none => crustDrop conn s

/-- RoutingNode::generate_churn - sign and send the churn direct message
to the target connections, then notify the user. -/
def generateChurn (ourId : Id) (closeGroup : List NameType) (targets : List Connection)
    (s : Sys) : Sys :=
  let dm : DirectMessage := { content := .churnMsg closeGroup, signerKey := ourId.key }
  let s := targets.foldl (fun s c => crustSend c (.directMsg dm) s) s
  emit (.churn closeGroup) s

/-- RoutingNode::trigger_churn - collect the current close group (our name
first) and their connections, then generate the churn. -/
def triggerChurn (env : Env) (s : Sys) : Sys :=
  let ourCloseGroup := s.node.routingTable.ourCloseGroup env.groupSize
  let closeGroup := s.node.id.name :: ourCloseGroup.map (fun ni => ni.id)
  let closeGroupConnections := ourCloseGroup.foldr (fun ni acc => ni.connections ++ acc) []
  generateChurn s.node.id closeGroup closeGroupConnections s

/-- RoutingNode::add_node.  The assert on a present network name aborts;
a successful add moves the state to Connected from a previously empty
table and to GroupConnected (dropping all bootstrap connections) when the
prior size was GROUP_SIZE - 1; churn fires when the added name was in our
close-group range. -/
def addNode (env : Env) (conn : Connection) (pid : PublicId) (s : Sys) : Sys :=
  if s.node.networkName = none then abortProcess s
  else
    let priorSize := s.node.routingTable.size
    let nodeInfo := NodeInfo.new pid [conn]
    let shouldTriggerChurn := nameInRange env s.node nodeInfo.id
    let (added, evicted, rt') := s.node.routingTable.addNode nodeInfo
    let s := s.withNode ({ · with routingTable := rt' })
    let s :=
      match evicted with
      | some node => node.connections.foldl (fun s c => crustDrop c s) s
      | none => s
    if added then
      let s :=
        if priorSize = 0 then s.withNode ({ · with state := .connected })
        else if priorSize = env.groupSize - 1 then
          let s := s.withNode ({ · with state := .groupConnected })
          let s := emit .connected s
          let s := s.node.bootstrapMap.foldl (fun s e => crustDrop e.1 s) s
          s.withNode ({ · with bootstrapMap := [] })
        else s
      if shouldTriggerChurn then triggerChurn env s else s
    else crustDrop conn s

/-- RoutingNode::handle_identify. -/
def handleIdentify (env : Env) (conn : Connection) (pid : PublicId) (s : Sys) : Sys :=
  let peerIsClient := ¬ pid.isNode
  match s.node.state with
  | .disconnected =>
    if ¬ s.node.bootstrapMap.isEmpty then abortProcess s
    else
      let s := s.withNode (fun n =>
        { n with bootstrapMap := (mapInsert conn pid.name n.bootstrapMap).2,
                 state := .bootstrapped })
      emit .bootstrapped s
  | .bootstrapped => crustDrop conn s
  | .relocated =>
    if peerIsClient then crustDrop conn s
    else addNode env conn pid s
  | .connected =>
    if peerIsClient then addClient conn pid s else addNode env conn pid s
  | .groupConnected =>
    if peerIsClient then addClient conn pid s else addNode env conn pid s
  | .terminated => s

/-- RoutingNode::dropped_client_connection - remove the relay entry whose
connection was lost. -/
def droppedClientConnection (conn : Connection) (s : Sys) : Sys :=
  match s.node.relayMap.find? (fun e => e.2 = conn) with
  | some e => s.withNode (fun n => { n with relayMap := mapRemove e.1 n.relayMap })
  | none => s

/-- RoutingNode::dropped_bootstrap_connection. -/
def droppedBootstrapConnection (conn : Connection) (s : Sys) : Sys :=
  s.withNode (fun n => { n with bootstrapMap := mapRemove conn n.bootstrapMap })

/-- RoutingNode::dropped_routing_node_connection.  The close-group loop in
the source body is empty (the churn trigger exists only as a comment), so
the node is removed without any churn. -/
def droppedRoutingNodeConnection (conn : Connection) (s : Sys) : Sys :=
  match s.node.routingTable.dropConnection conn with
  | (some nodeName, rt') =>
    s.withNode ({ · with routingTable := rt'.dropNode nodeName })
  | (none, rt') => s.withNode ({ · with routingTable := rt' })

/-- RoutingNode::handle_lost_connection. -/
def handleLostConnection (conn : Connection) (s : Sys) : Sys :=
  droppedBootstrapConnection conn (droppedClientConnection conn
    (droppedRoutingNodeConnection conn s))

/-- RoutingNode::handle_external_response - a carried token must verify
against our key, otherwise the destination must be in our close-group
range; then the response surfaces as a user event. -/
def handleExternalResponse (env : Env) (key : Nat) (kind : DataKind) (payload : Nat)
    (tok : OptToken) (toAuthority fromAuthority : Authority) (s : Sys) : Res × Sys :=
  let ok :=
    match tok with
    | .someT t => t.verifySignature s.node.id.key
    | .noneT => nameInRange env s.node toAuthority.getLocation
  if !ok then
    (match tok with
     | .someT _ => (.error .failedSignature, s)
     | .noneT => (.error .badAuthority, s))
  else
    (.ok (), emit (.response key kind payload tok toAuthority fromAuthority) s)

/-- RoutingNode::handle_refresh.  The refresh_causes filter is only ever
checked, never added to, in the source; the embedding reproduces that. -/
def handleRefresh (env : Env) (tag : Nat) (sender : NameType) (payload : Nat)
    (ourAuthority : Authority) (cause : NameType) (s : Sys) : Res × Sys :=
  let threshold := routingTableQuorumSize env s.node
  let unknownCause := ¬ cause ∈ s.node.refreshCauses
  let (isNewRequest, payloads, acc') :=
    s.node.refreshAccumulator.addMessage threshold tag sender ourAuthority payload cause
  let s := s.withNode ({ · with refreshAccumulator := acc' })
  let s :=
    if unknownCause ∧ isNewRequest then emit (.doRefresh tag ourAuthority cause) s else s
  match payloads with
  | some ps => (.ok (), emit (.refreshEv tag ourAuthority ps) s)
  | none => (.error .notEnoughSignatures, s)

/-- RoutingNode::handle_connect_response - verify the token is ours, that
the original request came from us, and that the table still wants the
peer; then initiate the transport connect with a fresh token. -/
def handleConnectResponse (resp : InternalResponse) (_fromAuthority : Authority)
    (s : Sys) : Res × Sys :=
  match resp with
  | .connect endpoints pid signedToken =>
    if ¬ signedToken.verifySignature s.node.id.key then (.error .failedSignature, s)
    else
      let connectRequest := SignedMessage.newFromToken signedToken
      match connectRequest.getRoutingMessage.fromAuthority.getAddress with
      | some address =>
        if ¬ s.node.isUs address then (.error .badAuthority, s)
        else if ¬ s.node.routingTable.wantToAdd pid.name then
          (.error .refusedFromRoutingTable, s)
        else
          let (connectionToken, n') := getConnectionToken s.node
          let s := s.withNode (fun _ => n')
          let s := crustConnect connectionToken endpoints s
          let s := s.withNode (fun n =>
            { n with connectionFilter := filterAdd pid.name n.connectionFilter })
          (.ok (), s)
      | none => (.error .badAuthority, s)
  | _ => (.error .badAuthority, s)

/-- RoutingNode::send_failed_message_to_user. -/
def sendFailedMessageToUser (toAuthority : Authority) (content : Content) (s : Sys) : Sys :=
  match content with
  | .externalRequest key kind => emit (.failedRequest key kind none toAuthority) s
  | .externalResponse key kind payload _ => emit (.failedResponse key kind payload none toAuthority) s
  | _ => s

/-- Whether a routing message is a RelocatedNetworkName response (the one
group-source message exempted from accumulation). -/
def isRelocationResponse (m : RoutingMessage) : Bool :=
  match m.content with
  | .internalResponse (.relocatedNetworkName ..) => true
  | _ => false

/-- RoutingNode::accumulate.  Messages not from a group, and the
RelocatedNetworkName response exception, pass through with a signed token;
a group message with a Client claimant is dropped; otherwise the message
is added to the accumulator under quorum min(table size, QUORUM_SIZE) and
marked handled once the quorum is reached. -/
def accumulate (env : Env) (sm : SignedMessage) (n : RoutingNode) :
    Option (RoutingMessage × OptToken) × RoutingNode :=
  let message := sm.message
  if !message.fromAuthority.isGroup || isRelocationResponse message then
    (some (message, .someT sm.asToken), n)
  else
    match sm.claimant with
    | .client _ => (none, n)
    | .node _ =>
      let dynamicQuorumSize := routingTableQuorumSize env n
      let acc := n.messageAccumulator.setQuorumSize dynamicQuorumSize
      let (reached, acc') := acc.add message
      if reached then
        (some (message, .noneT),
         { n with messageAccumulator := acc',
                  handledMessages := filterAdd message n.handledMessages })
      else (none, { n with messageAccumulator := acc' })

/-- The non-recursive part of RoutingNode::send: client-mode bootstrap
fan-out (with the process abort when no bootstrap connection exists),
direct relay to a client destination, and routed fan-out; returns whether
the destination is in our close-group range and the message must re-enter
the ingress pipeline. -/
def sendCore (env : Env) (sm : SignedMessage) (s : Sys) : Bool × Sys :=
  let destination := sm.message.destination
  if ¬ s.node.isNode then
    let bootstrapConnections := s.node.bootstrapMap.map (·.1)
    if bootstrapConnections.isEmpty then (false, abortProcess s)
    else
      (false, bootstrapConnections.foldl (fun s c => crustSend c (.signedMsg sm) s) s)
  else
    match destination with
    | .client _ clientKey =>
      match mapLookup clientKey s.node.relayMap with
      | some relayConnection => (false, crustSend relayConnection (.signedMsg sm) s)
      | none => (false, s)
    | _ =>
      let targets := s.node.routingTable.targetNodes destination.getLocation
      let s := targets.foldl
        (fun s ni => ni.connections.foldl (fun s c => crustSend c (.signedMsg sm) s) s) s
      (nameInRange env s.node destination.getLocation, s)

/-- The entry points of the mutually recursive part of the core: the
ingress pipeline, the send path, and the handlers that can send again.
The recursion (forwarding re-enters the pipeline through send) is broken
with a fuel parameter in exec. -/
inductive Call where
  | handleRoutingMessage (sm : SignedMessage)
  | send (sm : SignedMessage)
  | sendContent (ourAuthority toAuthority : Authority) (content : Content)
  | clientSendContent (toAuthority : Authority) (content : Content)
  | sendConnectRequest (peerName : NameType)
  | refreshRoutingTable (fromNode : NameType)
  | handleChurn (closeGroup : List NameType)
  | handleDirectMessage (dm : DirectMessage) (conn : Connection)
  | handleRequestNetworkName (req : InternalRequest) (fromAuthority toAuthority : Authority)
      (responseToken : SignedToken)
  | handleRelocatedNetworkName (relocatedId : PublicId) (responseToken : SignedToken)
  | handleRelocationResponse (relocatedId : PublicId) (closeGroupIds : List PublicId)
      (originalSignedToken : SignedToken) (fromAuthority toAuthority : Authority)
  | handleConnectRequest (endpoints : List Endpoint) (pid : PublicId)
      (fromAuthority : Authority) (responseToken : SignedToken)

/-- The final part of RoutingNode::handle_routing_message (source lines
579-589): a success or an unknown-message-type outcome records the
claimant fingerprint; every other error leaves the filter alone. -/
def finishDispatch (message : RoutingMessage) (claimant : Address) (r : Res) (s : Sys) :
    Res × Sys :=
  match r with
  | .ok _ =>
    (Except.ok (), s.withNode (fun n =>
      { n with claimantMessageFilter :=
          filterAdd (message, claimant) n.claimantMessageFilter }))
  | .error .unknownMessageType =>
    (Except.error RoutingError.unknownMessageType, s.withNode (fun n =>
      { n with claimantMessageFilter :=
          filterAdd (message, claimant) n.claimantMessageFilter }))
  | .error e => (Except.error e, s)

/-- The authority check of the ingress pipeline (source lines 439-463):
our computed authority must equal the message's to_authority, else a group
destination must be in our close-group range or a single-node destination
must identify us. -/
def authorizedFor (env : Env) (n : RoutingNode) (message : RoutingMessage) : Bool :=
  let ourAuth := ourAuthorityOf env n message
  let authorityMismatch : Bool :=
    match ourAuth with
    | some a => decide (message.toAuthority ≠ a)
    | none => true
  if authorityMismatch then
    if message.destination.isGroup then
      nameInRange env n message.destination.getLocation
    else
      match message.destination.getAddress with
      | some address => n.isUs address
      | none => false
  else true

/-- The dispatch by content kind of the accumulated routing message
(source lines 476-577). -/
def dispatchContent (env : Env) (recur : Call → Sys → Res × Sys)
    (message : RoutingMessage) (claimant : Address) (ourAuth : Option Authority)
    (accMsg : RoutingMessage) (optToken : OptToken) (s : Sys) : Res × Sys :=
  match accMsg.content with
      | .internalRequest req =>
        match req with
        | .requestNetworkName _ =>
          match optToken with
          | .someT responseToken =>
            let (r, s) := recur (.handleRequestNetworkName req accMsg.fromAuthority
              accMsg.toAuthority responseToken) s
            finishDispatch message claimant r s
          | .noneT => (.error .unknownMessageType, s)
        | .relocatedNetworkName relocatedId responseToken =>
          match accMsg.fromAuthority, accMsg.toAuthority with
          | .naeManager _, .naeManager targetName =>
            if nameInRange env s.node targetName then
              let (r, s) := recur (.handleRelocatedNetworkName relocatedId responseToken) s
              finishDispatch message claimant r s
            else finishDispatch message claimant (.error .badAuthority) s
          | _, _ => finishDispatch message claimant (.error .badAuthority) s
        | .connect endpoints pid =>
          match optToken with
          | .someT responseToken =>
            let (r, s) := recur (.handleConnectRequest endpoints pid
              accMsg.fromAuthority responseToken) s
            finishDispatch message claimant r s
          | .noneT => (.error .unknownMessageType, s)
        | .refresh tag bytes cause =>
          match ourAuth with
          | some authority =>
            if !authority.isGroup then (.error .badAuthority, s)
            else
              match claimant with
              | .node name =>
                let rs := handleRefresh env tag name bytes authority cause s
                finishDispatch message claimant rs.1 rs.2
              | .client _ => finishDispatch message claimant (.error .badAuthority) s
          | none => (.error .badAuthority, s)
      | .internalResponse resp =>
        match resp with
        | .relocatedNetworkName relocatedId closeGroupIds originalSignedToken =>
          let (r, s) := recur (.handleRelocationResponse relocatedId closeGroupIds
            originalSignedToken accMsg.fromAuthority accMsg.toAuthority) s
          finishDispatch message claimant r s
        | .connect .. =>
          let rs := handleConnectResponse resp accMsg.fromAuthority s
          finishDispatch message claimant rs.1 rs.2
      | .externalRequest key kind =>
        let s := emit (.request key kind accMsg.toAuthority accMsg.fromAuthority optToken) s
        finishDispatch message claimant (.ok ()) s
      | .externalResponse key kind payload tok =>
        let rs := handleExternalResponse env key kind payload tok
          accMsg.toAuthority accMsg.fromAuthority s
        finishDispatch message claimant rs.1 rs.2

/-- The lower half of RoutingNode::handle_routing_message: the authority
check, the accumulation and the dispatch by content kind, ending in
finishDispatch (except for the direct returns of the source, which bypass
it). -/
def accumulateAndDispatch (env : Env) (recur : Call → Sys → Res × Sys)
    (sm : SignedMessage) (s : Sys) : Res × Sys :=
  let message := sm.getRoutingMessage
  let claimant := sm.claimant
  let ourAuth := ourAuthorityOf env s.node message
  if !authorizedFor env s.node message then (.error .badAuthority, s)
  else
    match accumulate env sm s.node with
    | (none, n') => (.error .notEnoughSignatures, { s with node := n' })
    | (some (accMsg, optToken), n') =>
      dispatchContent env recur message claimant ourAuth accMsg optToken { s with node := n' }

/-- One unfolding of the recursive call cluster; recur performs the inner
calls (one fuel level down).  Each arm is the translation of the source
function of the same name. -/
def execBody (env : Env) (recur : Call → Sys → Res × Sys) : Call → Sys → Res × Sys
  | .handleRoutingMessage sm => fun s =>
    let message := sm.getRoutingMessage
    let claimant := sm.claimant
    if (message, claimant) ∈ s.node.claimantMessageFilter then (.error .filterCheckFailed, s)
    else if message ∈ s.node.handledMessages then (.error .filterCheckFailed, s)
    else
      let s := s.withNode (fun n => { n with dataCache := n.dataCache.put message })
      match s.node.dataCache.get message with
      | some content =>
        recur (.sendContent (.managedNode s.node.id.name) message.source content) s
      | none =>
        let s :=
          if s.node.networkName.isSome then
            let s :=
              match claimant with
              | .node name => (recur (.refreshRoutingTable name) s).2
              | _ => s
            let s := s.withNode (fun n =>
              { n with claimantMessageFilter :=
                  filterAdd (message, claimant) n.claimantMessageFilter })
            (recur (.send sm) s).2
          else s
        accumulateAndDispatch env recur sm s
  | .send sm => fun s =>
    let (reenter, s) := sendCore env sm s
    if reenter then
      let (_, s) := recur (.handleRoutingMessage sm) s
      (.ok (), s)
    else (.ok (), s)
  | .sendContent ourAuthority toAuthority content => fun s =>
    if s.node.isNode then
      let routingMessage : RoutingMessage := .mk ourAuthority toAuthority content
      let sm := SignedMessage.new (.node s.node.id.name) routingMessage s.node.id.key
      let (_, s) := recur (.send sm) s
      (.ok (), s)
    else
      match content with
      | .externalRequest key kind =>
        (.ok (), emit (.failedRequest key kind (some ourAuthority) toAuthority) s)
      | .externalResponse key kind payload _ =>
        (.ok (), emit (.failedResponse key kind payload (some ourAuthority) toAuthority) s)
      | _ => (.ok (), s)
  | .clientSendContent toAuthority content => fun s =>
    if s.node.isNode then (.ok (), abortProcess s)
    else
      match getClientAuthority s.node with
      | .ok clientAuthority =>
        let routingMessage : RoutingMessage := .mk clientAuthority toAuthority content
        let sm := SignedMessage.new (.client s.node.id.key) routingMessage s.node.id.key
        let (_, s) := recur (.send sm) s
        (.ok (), s)
      | .error _ => (.ok (), sendFailedMessageToUser toAuthority content s)
  | .sendConnectRequest peerName => fun s =>
    let fromPair : Except RoutingError (Authority × Address) :=
      match s.node.state with
      | .disconnected => .error .notBootstrapped
      | .bootstrapped =>
        match getClientAuthority s.node with
        | .ok a => .ok (a, .client s.node.id.key)
        | .error e => .error e
      | .relocated =>
        match getClientAuthority s.node with
        | .ok a => .ok (a, .client s.node.id.key)
        | .error e => .error e
      | .terminated => .error .terminated
      | .connected => .ok (.managedNode s.node.id.name, .node s.node.id.name)
      | .groupConnected => .ok (.managedNode s.node.id.name, .node s.node.id.name)
    match fromPair with
    | .error e => (.error e, s)
    | .ok (fromAuthority, address) =>
      let routingMessage : RoutingMessage := .mk fromAuthority (.managedNode peerName)
        (.internalRequest (.connect s.node.acceptingOn (PublicId.new s.node.id)))
      let sm := SignedMessage.new address routingMessage s.node.id.key
      let (_, s) := recur (.send sm) s
      (.ok (), s)
  | .refreshRoutingTable fromNode => fun s =>
    if fromNode ∈ s.node.connectionFilter then (.ok (), s)
    else
      let s :=
        if s.node.routingTable.wantToAdd fromNode then
          (recur (.sendConnectRequest fromNode) s).2
        else s
      (.ok (), s.withNode (fun n =>
        { n with connectionFilter := filterAdd fromNode n.connectionFilter }))
  | .handleChurn closeGroup => fun s =>
    (.ok (), closeGroup.foldl (fun s name => (recur (.refreshRoutingTable name) s).2) s)
  | .handleDirectMessage dm conn => fun s =>
    match dm.content with
    | .identify pid =>
      if !dm.verifySignature pid.signKey then (.ok (), crustDrop conn s)
      else (.ok (), handleIdentify env conn pid s)
    | .churnMsg closeGroup => recur (.handleChurn closeGroup) s
  | .handleRequestNetworkName req fromAuthority toAuthority responseToken => fun s =>
    if s.node.clientRestriction then (.ok (), s)
    else
      match req with
      | .requestNetworkName publicId =>
        match fromAuthority, toAuthority with
        | .client _bootstrapNode key, .naeManager name =>
          let closeGroupToClient := env.sha512 key
          if !(nameInRange env s.node closeGroupToClient && closeGroupToClient == name) then
            (.error .badAuthority, s)
          else
            match ourCloseGroupNames env s.node with
            | some closeGroup =>
              let relocatedName := env.calcRelocated closeGroup publicId.name
              let networkPublicId := publicId.assignRelocatedName relocatedName
              let routingMessage : RoutingMessage := .mk toAuthority (.naeManager relocatedName)
                (.internalRequest (.relocatedNetworkName networkPublicId responseToken))
              let sm := SignedMessage.new (.node s.node.id.name) routingMessage s.node.id.key
              let (_, s) := recur (.send sm) s
              (.ok (), s)
            | none => (.error .badAuthority, s)
        | _, _ => (.error .badAuthority, s)
      | _ => (.error .badAuthority, s)
  | .handleRelocatedNetworkName relocatedId responseToken => fun s =>
    let signedMessage := SignedMessage.newFromToken responseToken
    let targetClientAuthority := signedMessage.getRoutingMessage.source
    let fromAuthority : Authority := .naeManager s.node.id.name
    let publicIds := (s.node.routingTable.ourCloseGroup env.groupSize).map (·.publicId)
      ++ [PublicId.new s.node.id]
    let s := s.withNode (fun n =>
      { n with publicIdCache := (mapInsert relocatedId.name relocatedId n.publicIdCache).2 })
    let routingMessage : RoutingMessage := .mk fromAuthority targetClientAuthority
      (.internalResponse (.relocatedNetworkName relocatedId publicIds responseToken))
    let sm := SignedMessage.new (.node s.node.id.name) routingMessage s.node.id.key
    let (_, s) := recur (.send sm) s
    (.ok (), s)
  | .handleRelocationResponse relocatedId closeGroupIds originalSignedToken _fromA _toA =>
    fun s =>
    if !originalSignedToken.verifySignature s.node.id.key then (.error .failedSignature, s)
    else
      let originalRequest := SignedMessage.newFromToken originalSignedToken
      match originalRequest.getRoutingMessage.content with
      | .internalRequest (.requestNetworkName originalPublicId) =>
        let ourPublicId := PublicId.new s.node.id
        if ourPublicId ≠ originalPublicId then (.error .badAuthority, s)
        else
          let ourPublicIdRenamed := ourPublicId.setName relocatedId.name
          if ourPublicIdRenamed ≠ relocatedId then (.error .badAuthority, s)
          else
            let s := s.withNode (fun n =>
              { n with proposedRelocatedName := some relocatedId.name, state := .relocated })
            let s := closeGroupIds.foldl
              (fun s peer => (recur (.sendConnectRequest peer.name) s).2) s
            (.ok (), s)
      | _ => (.error .unknownMessageType, s)
  | .handleConnectRequest endpoints publicId fromAuthority responseToken => fun s =>
    let clientOk : Bool :=
      match fromAuthority with
      | .client _ publicKey =>
        match mapLookup publicId.name s.node.publicIdCache with
        | some cachedPublicId => cachedPublicId.signKey == publicKey
        | none => false
      | _ => true
    if !clientOk then (.error .badAuthority, s)
    else if !responseToken.verifySignature publicId.signKey then (.error .failedSignature, s)
    else if !s.node.routingTable.wantToAdd publicId.name then
      (.error .refusedFromRoutingTable, s)
    else
      let routingMessage : RoutingMessage := .mk (.managedNode s.node.id.name) fromAuthority
        (.internalResponse (.connect s.node.acceptingOn (PublicId.new s.node.id) responseToken))
      let sm := SignedMessage.new (.node s.node.id.name) routingMessage s.node.id.key
      let (_, s) := recur (.send sm) s
      let (connectionToken, n') := getConnectionToken s.node
      let s := { s with node := n' }
      let s := crustConnect connectionToken endpoints s
      let s := s.withNode (fun n =>
        { n with connectionFilter := filterAdd publicId.name n.connectionFilter })
      (.ok (), s)

/-- Fueled execution of the recursive call cluster.  At fuel zero every
call degenerates to a filtered drop with no state change; the claims are
all established either for every fuel or at a fuel high enough that the
base case is never reached. -/
def exec (env : Env) : Nat → Call → Sys → Res × Sys :=
  fun fuel =>
    Nat.rec (motive := fun _ => Call → Sys → Res × Sys)
      (fun _ s => (.error .filterCheckFailed, s))
      (fun _ recur => execBody env recur)
      fuel

/-- RoutingNode::handle_routing_message, at a given fuel. -/
def handleRoutingMessage (env : Env) (fuel : Nat) (sm : SignedMessage) (s : Sys) :
    Res × Sys :=
  exec env fuel (.handleRoutingMessage sm) s

/-- RoutingNode::send, at a given fuel. -/
def send (env : Env) (fuel : Nat) (sm : SignedMessage) (s : Sys) : Sys :=
  (exec env fuel (.send sm) s).2

/-- RoutingNode::handle_new_message - decode as a signed message, else as
a direct message; unparseable frames are dropped. -/
def handleNewMessage (env : Env) (fuel : Nat) (conn : Connection) (w : Wire) (s : Sys) :
    Sys :=
  match w with
  | .signedMsg sm => (exec env fuel (.handleRoutingMessage sm) s).2
  | .directMsg dm => (exec env fuel (.handleDirectMessage dm conn) s).2
  | .garbage => s

/-- action::Action - the user action surface. -/
inductive Action where
  | sendContent (ourAuthority toAuthority : Authority) (content : Content)
  | clientSendContent (toAuthority : Authority) (content : Content)
  | setDataCacheOptions (options : DataCacheOptions)
  | terminate

/-- crust::Event - the transport event surface. -/
inductive CrustEvent where
  | newMessage (conn : Connection) (w : Wire)
  | onConnect (conn : Connection) (connectionToken : Nat)
  | onRendezvousConnect (conn : Connection) (responseToken : Nat)
  | onAccept (conn : Connection)
  | lostConnection (conn : Connection)
  | bootstrapFinished
  | externalEndpoints (eps : List Endpoint)
  | onUdpSocketMapped
  | onHolePunched

/-- One input of the event loop: a user action or a transport event. -/
inductive Input where
  | action (a : Action)
  | crust (e : CrustEvent)

/-- One iteration of the RoutingNode::run event loop on a single input.
Terminate emits the Terminated event and stops the loop; the reserved
rendezvous and hole-punching events are unimplemented in the source and
abort.  A stopped or aborted system ignores further input. -/
def step (env : Env) (fuel : Nat) (s : Sys) : Input → Sys :=
  fun i =>
  if s.aborted || s.stopped then s
  else
    match i with
    | .action a =>
      match a with
      | .sendContent ourAuthority toAuthority content =>
        (exec env fuel (.sendContent ourAuthority toAuthority content) s).2
      | .clientSendContent toAuthority content =>
        (exec env fuel (.clientSendContent toAuthority content) s).2
      | .setDataCacheOptions options =>
        s.withNode (fun n => { n with dataCache := { n.dataCache with options := options } })
      | .terminate => { emit .terminated s with stopped := true }
    | .crust e =>
      match e with
      | .newMessage conn w => handleNewMessage env fuel conn w s
      | .onConnect conn _ => identifySend conn s
      | .onRendezvousConnect _ _ => abortProcess s
      | .onAccept conn => handleOnAccept env conn s
      | .lostConnection conn => handleLostConnection conn s
      | .bootstrapFinished => s
      | .externalEndpoints eps =>
        s.withNode (fun n => { n with acceptingOn := n.acceptingOn ++ eps })
      | .onUdpSocketMapped => abortProcess s
      | .onHolePunched => abortProcess s

/-- Run the event loop over a list of inputs. -/
def run (env : Env) (fuel : Nat) (s : Sys) (inputs : List Input) : Sys :=
  inputs.foldl (step env fuel) s

/-- RoutingNode::new with a fresh (unrelocated) key pair: the name is the
hash of the signing public key, the counter starts at one (zero is
reserved for bootstrapping), the state is Disconnected, the routing table
is keyed on the own name, caching is disabled and all maps are empty. -/
def initNode (env : Env) (key : Nat) (clientRestriction : Bool) : RoutingNode :=
  let ownName := env.sha512 key
  { connectionCounter := 1
    clientRestriction := clientRestriction
    claimantMessageFilter := []
    connectionFilter := []
    publicIdCache := []
    messageAccumulator := { quorumSize := 1, entries := [] }
    refreshAccumulator := { entries := [] }
    refreshCauses := []
    handledMessages := []
    dataCache := { options := ⟨false, false, false⟩, store := [] }
    proposedRelocatedName := none
    id := { key := key, name := ownName, relocatedFlag := false }
    state := .disconnected
    networkName := none
    routingTable := RoutingTable.new ownName
    bootstrapMap := []
    relayMap := []
    acceptingOn := [] }

def initSys (env : Env) (key : Nat) (clientRestriction : Bool) : Sys :=
  { node := initNode env key clientRestriction
    sends := []
    drops := []
    connects := []
    events := []
    aborted := false
    stopped := false }

/-- The consistency and bootstrap invariant of the reachable states:
a Disconnected node has no bootstrap entries and no network name, a node
with a network name has no bootstrap entries, a non-empty routing table
implies a network name, and the Connected and GroupConnected states imply
a network name. -/
def Inv (n : RoutingNode) : Prop :=
  (n.state = .disconnected → n.bootstrapMap = [] ∧ n.networkName = none) ∧
  (n.networkName.isSome → n.bootstrapMap = []) ∧
  (n.routingTable.nodes ≠ [] → n.networkName.isSome) ∧
  ((n.state = .connected ∨ n.state = .groupConnected) → n.networkName.isSome)

/-- What every operation of the core preserves about the node state: the
invariant, the presence of a network name, and the contents of the
claimant message filter and of the handled-messages filter (both grow
monotonically). -/
def NodePres (a b : RoutingNode) : Prop :=
  (Inv a → Inv b) ∧
  (a.networkName.isSome → b.networkName.isSome) ∧
  (∀ x, x ∈ a.claimantMessageFilter → x ∈ b.claimantMessageFilter) ∧
  (∀ m, m ∈ a.handledMessages → m ∈ b.handledMessages)

/-- Only effect lists changed: the node state and the user events are
untouched. -/
def EffOnly (a b : Sys) : Prop := b.node = a.node ∧ b.events = a.events

/-- A concrete environment instance for the scenario runs: GROUP_SIZE 2,
QUORUM_SIZE 2, an injective digest, a fixed relocation function, and an
authority computation that accepts the message destination. -/
def env0 : Env :=
  { groupSize := 2
    quorumSize := 2
    sha512 := fun n => n + 1000
    calcRelocated := fun _ n => n + 7
    ourAuthorityFn := fun m _ => some m.toAuthority }

def pid1 : PublicId := { name := 21, signKey := 6, isNodeFlag := true }

def pid2 : PublicId := { name := 22, signKey := 7, isNodeFlag := true }

/-- Scenario: a fresh node self-promotes on an accepted connection and
then admits two node peers, reaching GroupConnected with table size 2
under env0 (GROUP_SIZE 2). -/
def runGroupConnected : Sys :=
  run env0 6 (initSys env0 5 false)
    [ .crust (.onAccept 1),
      .crust (.newMessage 11 (.directMsg { content := .identify pid1, signerKey := 6 })),
      .crust (.newMessage 12 (.directMsg { content := .identify pid2, signerKey := 7 })) ]

/-- Scenario continuation: the connection of the second routing peer is
lost. -/
def runAfterDrop : Sys := step env0 6 runGroupConnected (.crust (.lostConnection 12))

/-- A signed message from a single-node authority used to poke the
self-promoted seed node. -/
def smSeed : SignedMessage :=
  { claimant := .client 99
    message := .mk (.managedNode 50) (.naeManager 60) (.externalRequest 9 .immutable)
    signerKey := 99 }

/-- Scenario: a fresh node self-promotes on an accepted connection (so it
has a network name, an empty routing table and an empty bootstrap map) and
then receives any signed message. -/
def runSeedPoke : Sys :=
  run env0 6 (initSys env0 5 false)
    [ .crust (.onAccept 1), .crust (.newMessage 2 (.signedMsg smSeed)) ]

/-- A bootstrap peer used in the caching scenario. -/
def pidBoot : PublicId := { name := 30, signKey := 8, isNodeFlag := true }

/-- An external Get response for immutable data, cache key 9. -/
def mCachedResponse : RoutingMessage :=
  .mk (.naeManager 40) (.clientManager 41) (.externalResponse 9 .immutable 77 .noneT)

def smCachedResponse : SignedMessage :=
  { claimant := .node 40, message := mCachedResponse, signerKey := 40 }

/-- Scenario: a bootstrapped client enables immutable-data caching and
receives the Get response, which populates the data cache. -/
def runCachePrimed : Sys :=
  run env0 6 (initSys env0 5 false)
    [ .crust (.newMessage 1 (.directMsg { content := .identify pidBoot, signerKey := 8 })),
      .action (.setDataCacheOptions ⟨false, false, true⟩),
      .crust (.newMessage 1 (.signedMsg smCachedResponse)) ]

/-- The external Get request matching the cached response. -/
def mCachedRequest : RoutingMessage :=
  .mk (.clientManager 41) (.naeManager 40) (.externalRequest 9 .immutable)

def smCachedRequest : SignedMessage :=
  { claimant := .client 55, message := mCachedRequest, signerKey := 55 }

/-- The cached request processed once against the primed cache. -/
def runCacheOnce : Sys := (handleRoutingMessage env0 6 smCachedRequest runCachePrimed).2

/-- The same (message, claimant) pair processed a second time. -/
def runCacheTwice : Sys := (handleRoutingMessage env0 6 smCachedRequest runCacheOnce).2

/-- Scenario: the self-promoted node with exactly one routing peer, so its
dynamic quorum is min(1, QUORUM_SIZE) = 1. -/
def runOnePeer : Sys :=
  run env0 6 (initSys env0 5 false)
    [ .crust (.onAccept 1),
      .crust (.newMessage 11 (.directMsg { content := .identify pid1, signerKey := 6 })) ]

/-- A group-source message whose claimant is a Client address. -/
def smClientClaimant : SignedMessage :=
  { claimant := .client 77
    message := .mk (.naeManager 50) (.naeManager 60) (.externalRequest 3 .plain)
    signerKey := 77 }

/-- The same group-source message but with a Node claimant (the admitted
peer's name), as group accumulation expects. -/
def smNodeClaimant : SignedMessage :=
  { claimant := .node 21
    message := .mk (.naeManager 50) (.naeManager 60) (.externalRequest 3 .plain)
    signerKey := 6 }

/-- The node state right before the connection counter wraps: the token
2^32 - 1 is about to be handed out. -/
def nodeAtWrap : RoutingNode := { initNode env0 5 false with connectionCounter := 4294967295 }

/-- A relay map holding MAX_RELAYS distinct client keys. -/
def fullRelayMap : List (PublicKey × Connection) := (List.range 100).map (fun i => (i, i))

/-- A node whose relay map is full. -/
def sysFullRelay : Sys :=
  { initSys env0 5 false with node := { initNode env0 5 false with relayMap := fullRelayMap } }

/-- The 101st client identifying itself while the relay map is full. -/
def pidExtraClient : PublicId := { name := 600, signKey := 500, isNodeFlag := false }

/-- Fuel zero degenerates to a silent filtered drop. -/
theorem exec_zero (env : Env) (c : Call) (s : Sys) :
    exec env 0 c s = (.error .filterCheckFailed, s) := rfl

/-- Unfolding one fuel level. -/
theorem exec_succ (env : Env) (f : Nat) (c : Call) (s : Sys) :
    exec env (f + 1) c s = execBody env (exec env f) c s := rfl

theorem mem_filterAdd {α : Type} [DecidableEq α] {x y : α} {f : List α} (h : x ∈ f) :
    x ∈ filterAdd y f := by
  unfold filterAdd
  split
  · exact h
  · exact List.mem_cons_of_mem _ h

theorem self_mem_filterAdd {α : Type} [DecidableEq α] (x : α) (f : List α) :
    x ∈ filterAdd x f := by
  unfold filterAdd
  split
  · assumption
  · exact List.mem_cons_self _ _

/-- Generic preservation through a left fold. -/
theorem foldl_pres {α : Type} (P : Sys → Sys → Prop) (hrefl : ∀ s, P s s)
    (htrans : ∀ a b c, P a b → P b c → P a c) (f : Sys → α → Sys)
    (h : ∀ s a, P s (f s a)) : ∀ (l : List α) (s : Sys), P s (l.foldl f s) := by
  intro l
  induction l with
  | nil => intro s; exact hrefl s
  | cons a rest ih => intro s; exact htrans _ _ _ (h s a) (ih (f s a))

theorem effOnly_refl (s : Sys) : EffOnly s s := ⟨rfl, rfl⟩

theorem effOnly_trans {a b c : Sys} (h1 : EffOnly a b) (h2 : EffOnly b c) : EffOnly a c :=
  ⟨h2.1.trans h1.1, h2.2.trans h1.2⟩

theorem effOnly_crustSend (c : Connection) (w : Wire) (s : Sys) :
    EffOnly s (crustSend c w s) := ⟨rfl, rfl⟩

theorem effOnly_foldl {α : Type} {f : Sys → α → Sys}
    (h : ∀ s a, EffOnly s (f s a)) (l : List α) (s : Sys) : EffOnly s (l.foldl f s) :=
  foldl_pres EffOnly effOnly_refl (fun _ _ _ => effOnly_trans) f h l s

/-- The send path never mutates the node state and never emits a user
event (only crust sends and the abort flag change). -/
theorem sendCore_effOnly (env : Env) (sm : SignedMessage) (s : Sys) :
    EffOnly s (sendCore env sm s).2 := by
  rcases hsc : sendCore env sm s with ⟨b, s'⟩
  have goal : EffOnly s s' := by
    unfold sendCore at hsc
    dsimp only at hsc
    split at hsc
    · split at hsc
      · cases hsc; exact ⟨rfl, rfl⟩
      · cases hsc
        exact effOnly_foldl (fun s' c => effOnly_crustSend c (.signedMsg sm) s') _ s
    · split at hsc
      · split at hsc
        · cases hsc; exact ⟨rfl, rfl⟩
        · cases hsc; exact ⟨rfl, rfl⟩
      · cases hsc
        exact effOnly_foldl (fun s' ni =>
          effOnly_foldl (fun s'' c => effOnly_crustSend c (.signedMsg sm) s'') _ s') _ s
  exact goal

theorem nodePres_refl (n : RoutingNode) : NodePres n n :=
  ⟨id, id, fun _ h => h, fun _ h => h⟩

theorem nodePres_trans {a b c : RoutingNode} (h1 : NodePres a b) (h2 : NodePres b c) :
    NodePres a c :=
  ⟨fun h => h2.1 (h1.1 h), fun h => h2.2.1 (h1.2.1 h),
   fun x hx => h2.2.2.1 x (h1.2.2.1 x hx), fun m hm => h2.2.2.2 m (h1.2.2.2 m hm)⟩

theorem nodePres_of_eq {a b : RoutingNode} (h : b = a) : NodePres a b := by
  subst h; exact nodePres_refl b

/-- NodePres holds whenever the invariant-relevant fields are unchanged
and the two filters only grew. -/
theorem nodePres_of_fields {a b : RoutingNode}
    (h1 : b.state = a.state) (h2 : b.networkName = a.networkName)
    (h3 : b.bootstrapMap = a.bootstrapMap) (h4 : b.routingTable = a.routingTable)
    (h5 : ∀ x, x ∈ a.claimantMessageFilter → x ∈ b.claimantMessageFilter)
    (h6 : ∀ m, m ∈ a.handledMessages → m ∈ b.handledMessages) :
    NodePres a b := by
  refine ⟨?_, ?_, h5, h6⟩
  · intro hInv
    unfold Inv at hInv ⊢
    rw [h1, h2, h3, h4]
    exact hInv
  · intro h
    rw [h2]
    exact h

/-- A message whose fingerprint is in the claimant filter is dropped
silently: the error is FilterCheckFailed and the system is unchanged. -/
theorem handleRoutingMessage_filterHit (env : Env) (fuel : Nat) (sm : SignedMessage)
    (s : Sys) (h : (sm.message, sm.claimant) ∈ s.node.claimantMessageFilter) :
    exec env fuel (.handleRoutingMessage sm) s = (.error .filterCheckFailed, s) := by
  cases fuel with
  | zero => rfl
  | succ f =>
    rw [exec_succ]
    simp only [execBody, SignedMessage.getRoutingMessage]
    rw [if_pos h]

/-- A message already in the handled-messages filter is dropped silently. -/
theorem handleRoutingMessage_handledHit (env : Env) (fuel : Nat) (sm : SignedMessage)
    (s : Sys) (h : sm.message ∈ s.node.handledMessages) :
    exec env fuel (.handleRoutingMessage sm) s = (.error .filterCheckFailed, s) := by
  cases fuel with
  | zero => rfl
  | succ f =>
    rw [exec_succ]
    simp only [execBody, SignedMessage.getRoutingMessage]
    by_cases hp : (sm.message, sm.claimant) ∈ s.node.claimantMessageFilter
    · rw [if_pos hp]
    · rw [if_neg hp, if_pos h]

/-- Sending a message whose fingerprint is already filtered only records
transport effects: the pipeline re-entry is a no-op. -/
theorem send_filterHit_effOnly (env : Env) (fuel : Nat) (sm : SignedMessage) (s : Sys)
    (h : (sm.message, sm.claimant) ∈ s.node.claimantMessageFilter) :
    EffOnly s (exec env fuel (.send sm) s).2 := by
  cases fuel with
  | zero => exact effOnly_refl s
  | succ f =>
    rw [exec_succ]
    simp only [execBody]
    rcases hsc : sendCore env sm s with ⟨reenter, s'⟩
    have heff : EffOnly s s' := by
      have h0 := sendCore_effOnly env sm s
      rw [hsc] at h0
      exact h0
    dsimp only
    split
    · rw [handleRoutingMessage_filterHit env f sm s' (by rw [heff.1]; exact h)]
      exact heff
    · exact heff

theorem identifySend_node (conn : Connection) (s : Sys) :
    (identifySend conn s).node = s.node := rfl

theorem emit_node (e : Event) (s : Sys) : (emit e s).node = s.node := rfl

theorem crustDrop_node (c : Connection) (s : Sys) : (crustDrop c s).node = s.node := rfl

theorem foldl_crustDrop_node (l : List (Connection × NameType)) (s : Sys) :
    (l.foldl (fun s e => crustDrop e.1 s) s).node = s.node :=
  (effOnly_foldl (f := fun s e => crustDrop e.1 s) (fun _ _ => ⟨rfl, rfl⟩) l s).1

theorem generateChurn_node (ourId : Id) (cg : List NameType) (targets : List Connection)
    (s : Sys) : (generateChurn ourId cg targets s).node = s.node := by
  unfold generateChurn
  have h := effOnly_foldl (f := fun s c => crustSend c (.directMsg
    { content := .churnMsg cg, signerKey := ourId.key }) s)
    (fun s' c => effOnly_crustSend _ _ s') targets s
  simpa [emit] using h.1

theorem triggerChurn_node (env : Env) (s : Sys) : (triggerChurn env s).node = s.node := by
  unfold triggerChurn
  exact generateChurn_node _ _ _ s

theorem handleExternalResponse_node (env : Env) (key : Nat) (kind : DataKind)
    (payload : Nat) (tok : OptToken) (toA fromA : Authority) (s : Sys) :
    (handleExternalResponse env key kind payload tok toA fromA s).2.node = s.node := by
  unfold handleExternalResponse
  dsimp only
  split
  · split <;> rfl
  · rfl

theorem sendFailedMessageToUser_node (toA : Authority) (content : Content) (s : Sys) :
    (sendFailedMessageToUser toA content s).node = s.node := by
  unfold sendFailedMessageToUser
  split <;> rfl

theorem handleRefresh_nodePres (env : Env) (tag : Nat) (sender : NameType) (payload : Nat)
    (authority : Authority) (cause : NameType) (s : Sys) :
    NodePres s.node (handleRefresh env tag sender payload authority cause s).2.node := by
  unfold handleRefresh
  dsimp only
  split
  · split <;>
      exact nodePres_of_fields rfl rfl rfl rfl (fun _ h => h) (fun _ h => h)
  · split <;>
      exact nodePres_of_fields rfl rfl rfl rfl (fun _ h => h) (fun _ h => h)

theorem handleConnectResponse_nodePres (resp : InternalResponse) (fromA : Authority)
    (s : Sys) : NodePres s.node (handleConnectResponse resp fromA s).2.node := by
  unfold handleConnectResponse
  split
  · dsimp only
    split
    · exact nodePres_refl _
    · split
      · split
        · exact nodePres_refl _
        · split
          · exact nodePres_refl _
          · exact nodePres_of_fields rfl rfl rfl rfl (fun _ h => h) (fun _ h => h)
      · exact nodePres_refl _
  · exact nodePres_refl _

theorem addClient_nodePres (conn : Connection) (pid : PublicId) (s : Sys) :
    NodePres s.node (addClient conn pid s).node := by
  unfold addClient
  dsimp only
  split
  all_goals split
  all_goals exact nodePres_of_fields rfl rfl rfl rfl (fun _ h => h) (fun _ h => h)

theorem accumulate_nodePres (env : Env) (sm : SignedMessage) (n : RoutingNode) :
    NodePres n (accumulate env sm n).2 := by
  unfold accumulate
  dsimp only
  split
  · exact nodePres_refl n
  · split
    · exact nodePres_refl n
    · split
      · exact nodePres_of_fields rfl rfl rfl rfl (fun _ h => h)
          (fun m h => mem_filterAdd h)
      · exact nodePres_of_fields rfl rfl rfl rfl (fun _ h => h) (fun _ h => h)

theorem finishDispatch_nodePres (message : RoutingMessage) (claimant : Address) (r : Res)
    (s : Sys) : NodePres s.node (finishDispatch message claimant r s).2.node := by
  unfold finishDispatch
  split
  · exact nodePres_of_fields rfl rfl rfl rfl (fun x h => mem_filterAdd h) (fun _ h => h)
  · exact nodePres_of_fields rfl rfl rfl rfl (fun x h => mem_filterAdd h) (fun _ h => h)
  · exact nodePres_refl _

theorem droppedClientConnection_nodePres (conn : Connection) (s : Sys) :
    NodePres s.node (droppedClientConnection conn s).node := by
  unfold droppedClientConnection
  split
  · exact nodePres_of_fields rfl rfl rfl rfl (fun _ h => h) (fun _ h => h)
  · exact nodePres_refl _

theorem droppedBootstrapConnection_nodePres (conn : Connection) (s : Sys) :
    NodePres s.node (droppedBootstrapConnection conn s).node := by
  unfold droppedBootstrapConnection Sys.withNode
  dsimp only
  refine ⟨?_, fun h => h, fun _ h => h, fun _ h => h⟩
  rintro ⟨h1, h2, h3, h4⟩
  refine ⟨?_, ?_, h3, h4⟩
  · intro hd
    obtain ⟨hb, hn⟩ := h1 hd
    rw [hb]
    exact ⟨rfl, hn⟩
  · intro hs
    rw [h2 hs]
    rfl

/-- Replacing the routing table with a shrunken one preserves NodePres
provided non-emptiness transports back. -/
theorem nodePres_routingTable_shrink {a b : RoutingNode} {rt' : RoutingTable}
    (hb : b = { a with routingTable := rt' })
    (h : rt'.nodes ≠ [] → a.routingTable.nodes ≠ []) : NodePres a b := by
  subst hb
  refine ⟨?_, fun h' => h', fun _ h' => h', fun _ h' => h'⟩
  rintro ⟨h1, h2, h3, h4⟩
  exact ⟨h1, h2, fun hne => h3 (h hne), h4⟩

theorem droppedRoutingNodeConnection_nodePres (conn : Connection) (s : Sys) :
    NodePres s.node (droppedRoutingNodeConnection conn s).node := by
  unfold droppedRoutingNodeConnection
  split
  next nodeName rt' heq =>
    refine nodePres_routingTable_shrink rfl ?_
    intro _hne hnil
    unfold RoutingTable.dropConnection at heq
    split at heq
    next ni hf =>
      rw [hnil] at hf
      simp at hf
    next hf => simp at heq
  next rt' heq =>
    unfold RoutingTable.dropConnection at heq
    split at heq
    next ni hf => simp at heq
    next hf =>
      cases heq
      refine nodePres_routingTable_shrink rfl ?_
      exact fun h => h

theorem handleLostConnection_nodePres (conn : Connection) (s : Sys) :
    NodePres s.node (handleLostConnection conn s).node := by
  unfold handleLostConnection
  exact nodePres_trans (droppedRoutingNodeConnection_nodePres conn s)
    (nodePres_trans (droppedClientConnection_nodePres conn _)
      (droppedBootstrapConnection_nodePres conn _))

theorem assignNetworkName_nodePres_disconnected (newName : NameType) (s : Sys)
    (hd : s.node.state = .disconnected) :
    NodePres s.node (assignNetworkName newName s).2.node := by
  unfold assignNetworkName
  rw [hd]
  dsimp only
  split
  · exact nodePres_refl _
  · split
    · exact nodePres_refl _
    · split
      · exact nodePres_refl _
      · refine ⟨?_, fun _ => rfl, fun _ h => h, fun _ h => h⟩
        rintro ⟨h1, h2, h3, h4⟩
        obtain ⟨hb, hn⟩ := h1 hd
        refine ⟨?_, ?_, ?_, ?_⟩
        · intro hd2
          exact absurd hd2 (by simp [Sys.withNode])
        · intro _
          exact hb
        · intro hne
          exact absurd rfl hne
        · intro _
          rfl


theorem handleOnAccept_nodePres (env : Env) (conn : Connection) (s : Sys) :
    NodePres s.node (handleOnAccept env conn s).node := by
  unfold handleOnAccept
  rw [identifySend_node]
  cases hstate : s.node.state with
  | disconnected =>
    exact assignNetworkName_nodePres_disconnected _ s hstate
  | bootstrapped => exact nodePres_refl _
  | relocated => exact nodePres_refl _
  | connected => exact nodePres_refl _
  | groupConnected => exact nodePres_refl _
  | terminated => exact nodePres_refl _

theorem nodePres_state_connected {a : RoutingNode} {b : RoutingNode} {rt' : RoutingTable}
    (hb : b = { a with routingTable := rt', state := .connected })
    (hsome : a.networkName.isSome) : NodePres a b := by
  subst hb
  refine ⟨?_, fun h => h, fun _ h => h, fun _ h => h⟩
  rintro ⟨h1, h2, h3, h4⟩
  refine ⟨?_, h2, fun _ => hsome, fun _ => hsome⟩
  intro hd
  exact absurd hd (by simp)

theorem nodePres_state_groupConnected {a : RoutingNode} {b : RoutingNode}
    {rt' : RoutingTable}
    (hb : b = { a with routingTable := rt', state := .groupConnected, bootstrapMap := [] })
    (hsome : a.networkName.isSome) : NodePres a b := by
  subst hb
  refine ⟨?_, fun h => h, fun _ h => h, fun _ h => h⟩
  rintro ⟨h1, h2, h3, h4⟩
  refine ⟨?_, fun _ => rfl, fun _ => hsome, fun _ => hsome⟩
  intro hd
  exact absurd hd (by simp)

theorem nodePres_rtOnly {a b : RoutingNode} {rt' : RoutingTable}
    (hb : b = { a with routingTable := rt' }) (hsome : a.networkName.isSome) :
    NodePres a b := by
  subst hb
  refine ⟨?_, fun h => h, fun _ h => h, fun _ h => h⟩
  rintro ⟨h1, h2, h3, h4⟩
  refine ⟨?_, h2, fun _ => hsome, h4⟩
  intro hd
  obtain ⟨hb', hn⟩ := h1 hd
  rw [hn] at hsome
  simp at hsome

theorem addNode_nodePres (env : Env) (conn : Connection) (pid : PublicId) (s : Sys) :
    NodePres s.node (addNode env conn pid s).node := by
  unfold addNode
  split
  · exact nodePres_refl _
  next hnn =>
    have hsome : s.node.networkName.isSome := Option.isSome_iff_ne_none.mpr hnn
    dsimp only
    have hev : (s.node.routingTable.addNode (NodeInfo.new pid [conn])).2.1 = none := by
      unfold RoutingTable.addNode
      split <;> rfl
    rw [hev]
    dsimp only
    split
    next hadded =>
      split
      · rw [triggerChurn_node]
        split
        · exact nodePres_state_connected rfl hsome
        · split
          · simp only [Sys.withNode, emit_node, foldl_crustDrop_node]
            exact nodePres_state_groupConnected rfl hsome
          · exact nodePres_rtOnly rfl hsome
      · split
        · exact nodePres_state_connected rfl hsome
        · split
          · simp only [Sys.withNode, emit_node, foldl_crustDrop_node]
            exact nodePres_state_groupConnected rfl hsome
          · exact nodePres_rtOnly rfl hsome
    next hadded =>
      have hfl : (s.node.routingTable.addNode (NodeInfo.new pid [conn])).2.2 =
          s.node.routingTable := by
        revert hadded
        unfold RoutingTable.addNode
        split
        · intro h
          simp at h
        · intro _
          rfl
      rw [crustDrop_node]
      refine nodePres_of_eq ?_
      simp only [Sys.withNode]
      rw [hfl]

theorem handleIdentify_nodePres (env : Env) (conn : Connection) (pid : PublicId) (s : Sys) :
    NodePres s.node (handleIdentify env conn pid s).node := by
  unfold handleIdentify
  cases hstate : s.node.state with
  | disconnected =>
    dsimp only
    split
    · exact nodePres_refl _
    next hbe =>
      refine ⟨?_, fun h => h, fun _ h => h, fun _ h => h⟩
      rintro ⟨h1, h2, h3, h4⟩
      obtain ⟨hb, hn⟩ := h1 hstate
      refine ⟨?_, ?_, fun hne => h3 hne, ?_⟩
      · intro hd
        simp [emit, Sys.withNode] at hd
      · intro hs
        simp [emit, Sys.withNode, hn] at hs
      · intro hor
        simp [emit, Sys.withNode] at hor
  | bootstrapped => exact nodePres_refl _
  | relocated =>
    dsimp only
    split
    · exact nodePres_refl _
    · exact addNode_nodePres env conn pid s
  | connected =>
    dsimp only
    split
    · exact addClient_nodePres conn pid s
    · exact addNode_nodePres env conn pid s
  | groupConnected =>
    dsimp only
    split
    · exact addClient_nodePres conn pid s
    · exact addNode_nodePres env conn pid s
  | terminated => exact nodePres_refl _

theorem nodePres_proposedRelocated {a b : RoutingNode} {nm : NameType}
    (hb : b = { a with proposedRelocatedName := some nm, state := .relocated }) :
    NodePres a b := by
  subst hb
  refine ⟨?_, fun h => h, fun _ h => h, fun _ h => h⟩
  rintro ⟨h1, h2, h3, h4⟩
  refine ⟨?_, h2, h3, ?_⟩
  · intro hd
    exact absurd hd (by simp)
  · intro hor
    rcases hor with h | h <;> exact absurd h (by simp)

/-- NodePres lifted to systems, for fold arguments. -/
theorem nodePres_foldl {α : Type} {f : Sys → α → Sys}
    (h : ∀ s a, NodePres s.node (f s a).node) (l : List α) (s : Sys) :
    NodePres s.node (l.foldl f s).node :=
  foldl_pres (fun a b => NodePres a.node b.node) (fun _ => nodePres_refl _)
    (fun _ _ _ => nodePres_trans) f h l s

theorem dispatchContent_nodePres (env : Env) (recur : Call → Sys → Res × Sys)
    (hrec : ∀ c s, NodePres s.node (recur c s).2.node) (message : RoutingMessage)
    (claimant : Address) (ourAuth : Option Authority) (accMsg : RoutingMessage)
    (optToken : OptToken) (s : Sys) :
    NodePres s.node
      (dispatchContent env recur message claimant ourAuth accMsg optToken s).2.node := by
  unfold dispatchContent
  split
  · split
    · split
      · exact nodePres_trans (hrec _ _) (finishDispatch_nodePres _ _ _ _)
      · exact nodePres_refl _
    · split
      · split
        · exact nodePres_trans (hrec _ _) (finishDispatch_nodePres _ _ _ _)
        · exact finishDispatch_nodePres _ _ _ _
      all_goals exact finishDispatch_nodePres _ _ _ _
    · split
      · exact nodePres_trans (hrec _ _) (finishDispatch_nodePres _ _ _ _)
      · exact nodePres_refl _
    · split
      · split
        · exact nodePres_refl _
        · split
          · exact nodePres_trans (handleRefresh_nodePres _ _ _ _ _ _ _)
              (finishDispatch_nodePres _ _ _ _)
          · exact finishDispatch_nodePres _ _ _ _
      · exact nodePres_refl _
  · split
    · exact nodePres_trans (hrec _ _) (finishDispatch_nodePres _ _ _ _)
    · exact nodePres_trans (handleConnectResponse_nodePres _ _ _)
        (finishDispatch_nodePres _ _ _ _)
  · exact nodePres_trans (nodePres_of_eq (emit_node _ _)) (finishDispatch_nodePres _ _ _ _)
  · exact nodePres_trans (nodePres_of_eq (handleExternalResponse_node _ _ _ _ _ _ _ _))
      (finishDispatch_nodePres _ _ _ _)

theorem accumulateAndDispatch_nodePres (env : Env) (recur : Call → Sys → Res × Sys)
    (hrec : ∀ c s, NodePres s.node (recur c s).2.node) (sm : SignedMessage) (s : Sys) :
    NodePres s.node (accumulateAndDispatch env recur sm s).2.node := by
  unfold accumulateAndDispatch
  dsimp only
  split
  · exact nodePres_refl _
  · split
    next n' heq =>
      have h0 := accumulate_nodePres env sm s.node
      rw [heq] at h0
      exact h0
    next accMsg optToken n' heq =>
      have base : NodePres s.node n' := by
        have h0 := accumulate_nodePres env sm s.node
        rw [heq] at h0
        exact h0
      exact nodePres_trans base
        (dispatchContent_nodePres env recur hrec sm.getRoutingMessage sm.claimant
          (ourAuthorityOf env s.node sm.getRoutingMessage) accMsg optToken
          { s with node := n' })

theorem execBody_nodePres (env : Env) (recur : Call → Sys → Res × Sys)
    (hrec : ∀ c s, NodePres s.node (recur c s).2.node) (c : Call) (s : Sys) :
    NodePres s.node (execBody env recur c s).2.node := by
  have hfields : ∀ (a b : RoutingNode), b.state = a.state → b.networkName = a.networkName →
      b.bootstrapMap = a.bootstrapMap → b.routingTable = a.routingTable →
      b.claimantMessageFilter = a.claimantMessageFilter → b.handledMessages = a.handledMessages →
      NodePres a b := by
    intro a b h1 h2 h3 h4 h5 h6
    exact nodePres_of_fields h1 h2 h3 h4 (fun x hx => h5 ▸ hx) (fun m hm => h6 ▸ hm)
  cases c with
  | handleRoutingMessage sm =>
    unfold execBody
    dsimp only
    split
    · exact nodePres_refl _
    · split
      · exact nodePres_refl _
      · split
        · refine nodePres_trans ?_ (hrec _ _)
          exact nodePres_of_fields rfl rfl rfl rfl (fun _ hx => hx) (fun _ hm => hm)
        · have hput : ∀ t : Sys, NodePres t.node
              ((t.withNode (fun n =>
                { n with dataCache := n.dataCache.put sm.getRoutingMessage })).node) :=
            fun t => nodePres_of_fields rfl rfl rfl rfl (fun _ hx => hx) (fun _ hm => hm)
          have hmid : ∀ t : Sys, NodePres t.node
              ((t.withNode (fun n =>
                { n with claimantMessageFilter :=
                    filterAdd (sm.getRoutingMessage, sm.claimant) n.claimantMessageFilter })).node) :=
            fun t => nodePres_of_fields rfl rfl rfl rfl (fun _ hx => mem_filterAdd hx)
              (fun _ hm => hm)
          split
          · refine nodePres_trans (hput s) ?_
            refine nodePres_trans ?_ (accumulateAndDispatch_nodePres env recur hrec sm _)
            refine nodePres_trans ?_ (hrec (.send sm) _)
            split
            · exact nodePres_trans (hrec _ _) (hmid _)
            · exact hmid _
          · exact nodePres_trans (hput s)
              (accumulateAndDispatch_nodePres env recur hrec sm _)
  | send sm =>
    unfold execBody
    dsimp only
    split
    · exact nodePres_trans (nodePres_of_eq (sendCore_effOnly env sm s).1) (hrec _ _)
    · exact nodePres_of_eq (sendCore_effOnly env sm s).1
  | sendContent ourAuthority toAuthority content =>
    unfold execBody
    dsimp only
    split
    · exact hrec _ _
    · split <;> exact nodePres_refl _
  | clientSendContent toAuthority content =>
    unfold execBody
    dsimp only
    split
    · exact nodePres_refl _
    · split
      · exact hrec _ _
      · exact nodePres_of_eq (sendFailedMessageToUser_node _ _ _)
  | sendConnectRequest peerName =>
    unfold execBody
    dsimp only
    split
    · exact nodePres_refl _
    · exact hrec _ _
  | refreshRoutingTable fromNode =>
    unfold execBody
    dsimp only
    split
    · exact nodePres_refl _
    · have hmid : ∀ t : Sys, NodePres t.node
          ((t.withNode (fun n =>
            { n with connectionFilter := filterAdd fromNode n.connectionFilter })).node) :=
        fun t => nodePres_of_fields rfl rfl rfl rfl (fun _ hx => hx) (fun _ hm => hm)
      split
      · exact nodePres_trans (hrec _ _) (hmid _)
      · exact hmid _
  | handleChurn closeGroup =>
    unfold execBody
    dsimp only
    exact nodePres_foldl (fun t name => hrec (.refreshRoutingTable name) t) closeGroup s
  | handleDirectMessage dm conn =>
    unfold execBody
    dsimp only
    split
    · split
      · exact nodePres_refl _
      · exact handleIdentify_nodePres env conn _ s
    · exact hrec _ _
  | handleRequestNetworkName req fromAuthority toAuthority responseToken =>
    unfold execBody
    dsimp only
    repeat'
      first
      | exact nodePres_refl _
      | exact hrec _ _
      | split
  | handleRelocatedNetworkName relocatedId responseToken =>
    unfold execBody
    dsimp only
    refine nodePres_trans ?_ (hrec _ _)
    exact nodePres_of_fields rfl rfl rfl rfl (fun _ hx => hx) (fun _ hm => hm)
  | handleRelocationResponse relocatedId closeGroupIds originalSignedToken fromA toA =>
    unfold execBody
    dsimp only
    split
    · exact nodePres_refl _
    · split
      · split
        · exact nodePres_refl _
        · split
          · exact nodePres_refl _
          · refine nodePres_trans ?_
              (nodePres_foldl (fun t peer => hrec (.sendConnectRequest peer.name) t)
                closeGroupIds _)
            exact nodePres_proposedRelocated rfl
      · exact nodePres_refl _
  | handleConnectRequest endpoints publicId fromAuthority responseToken =>
    unfold execBody
    dsimp only
    split
    · exact nodePres_refl _
    · split
      · exact nodePres_refl _
      · split
        · exact nodePres_refl _
        · have hsend := hrec (.send (SignedMessage.new (.node s.node.id.name)
            (.mk (.managedNode s.node.id.name) fromAuthority
              (.internalResponse (.connect s.node.acceptingOn (PublicId.new s.node.id)
                responseToken))) s.node.id.key)) s
          refine nodePres_trans hsend ?_
          exact nodePres_of_fields rfl rfl rfl rfl (fun _ hx => hx) (fun _ hm => hm)

/-- Every fueled call preserves NodePres. -/
theorem exec_nodePres (env : Env) (fuel : Nat) (c : Call) (s : Sys) :
    NodePres s.node (exec env fuel c s).2.node := by
  induction fuel generalizing c s with
  | zero => exact nodePres_refl _
  | succ f ih =>
    rw [exec_succ]
    exact execBody_nodePres env (exec env f) (fun c' s' => ih c' s') c s

/-- Every step of the event loop preserves NodePres. -/
theorem step_nodePres (env : Env) (fuel : Nat) (s : Sys) (i : Input) :
    NodePres s.node (step env fuel s i).node := by
  unfold step
  dsimp only
  split
  · exact nodePres_refl _
  · split
    · split
      · exact exec_nodePres env fuel _ s
      · exact exec_nodePres env fuel _ s
      · exact nodePres_of_fields rfl rfl rfl rfl (fun _ h => h) (fun _ h => h)
      · exact nodePres_refl _
    · split
      · unfold handleNewMessage
        split
        · exact exec_nodePres env fuel _ s
        · exact exec_nodePres env fuel _ s
        · exact nodePres_refl _
      · exact nodePres_of_eq (identifySend_node _ _)
      · exact nodePres_refl _
      · exact handleOnAccept_nodePres env _ s
      · exact handleLostConnection_nodePres _ s
      · exact nodePres_refl _
      · exact nodePres_of_fields rfl rfl rfl rfl (fun _ h => h) (fun _ h => h)
      · exact nodePres_refl _
      · exact nodePres_refl _

/-- Every run of the event loop preserves NodePres. -/
theorem run_nodePres (env : Env) (fuel : Nat) (inputs : List Input) (s : Sys) :
    NodePres s.node (run env fuel s inputs).node := by
  unfold run
  exact nodePres_foldl (fun t i => step_nodePres env fuel t i) inputs s

/-- The freshly constructed node satisfies the invariant. -/
theorem Inv_initNode (env : Env) (key : Nat) (clientRestriction : Bool) :
    Inv (initNode env key clientRestriction) := by
  refine ⟨fun _ => ⟨rfl, rfl⟩, ?_, ?_, ?_⟩
  · intro h
    simp [initNode] at h
  · intro h
    exact absurd rfl h
  · intro h
    rcases h with h | h <;> simp [initNode] at h

/-- C5: once the node's state reaches Connected (and likewise
GroupConnected), the bootstrap map is empty, and it remains empty under
every subsequent list of actions and transport events, for every run of
the event loop from a fresh node. -/
theorem C5_bootstrap_empty_from_connected (env : Env) (fuel : Nat) (key : Nat)
    (clientRestriction : Bool) (inputs : List Input)
    (h : (run env fuel (initSys env key clientRestriction) inputs).node.state = .connected ∨
      (run env fuel (initSys env key clientRestriction) inputs).node.state = .groupConnected) :
    (run env fuel (initSys env key clientRestriction) inputs).node.bootstrapMap = [] ∧
    ∀ more : List Input,
      (run env fuel (run env fuel (initSys env key clientRestriction) inputs)
        more).node.bootstrapMap = [] := by
  have hpres := run_nodePres env fuel inputs (initSys env key clientRestriction)
  have hInv : Inv (run env fuel (initSys env key clientRestriction) inputs).node :=
    hpres.1 (Inv_initNode env key clientRestriction)
  have hsome := hInv.2.2.2 h
  refine ⟨hInv.2.1 hsome, ?_⟩
  intro more
  have hp2 := run_nodePres env fuel more (run env fuel (initSys env key clientRestriction) inputs)
  exact (hp2.1 hInv).2.1 (hp2.2.1 hsome)

/-- Witness for C5: the scenario run with one admitted routing peer is in
the Connected state, its bootstrap map is empty, and it stays empty after
a further transport event. -/
theorem C5_bootstrap_empty_from_connected_witness :
    (runOnePeer.node.state = .connected ∨ runOnePeer.node.state = .groupConnected) ∧
    runOnePeer.node.bootstrapMap = [] ∧
    (run env0 6 runOnePeer [.crust (.lostConnection 11)]).node.bootstrapMap = [] := by
  have h := C5_bootstrap_empty_from_connected env0 6 5 false
    [ .crust (.onAccept 1),
      .crust (.newMessage 11 (.directMsg { content := .identify pid1, signerKey := 6 })) ]
    (Or.inl rfl)
  exact ⟨Or.inl rfl, h.1, h.2 [.crust (.lostConnection 11)]⟩

/-- C2: the claimed state/size consistency invariant is violated by the
code.  A node that reached GroupConnected with GROUP_SIZE routing peers
and then loses one routing connection keeps the state GroupConnected while
the table size drops strictly below GROUP_SIZE (here GROUP_SIZE = 2, size
becomes 1), because dropped_routing_node_connection never updates the
state. -/
theorem C2_state_size_inconsistent_after_drop :
    runGroupConnected.node.state = .groupConnected ∧
    runGroupConnected.node.routingTable.size = env0.groupSize ∧
    runAfterDrop.node.state = .groupConnected ∧
    0 < runAfterDrop.node.routingTable.size ∧
    runAfterDrop.node.routingTable.size < env0.groupSize := by
  exact ⟨rfl, rfl, rfl, by decide, by decide⟩

/-- C4: with the relay map already holding MAX_RELAYS entries, an identify
from a further client drops the incoming connection but still inserts the
entry, so the relay map reaches MAX_RELAYS + 1 entries, contradicting the
claimed cap (the source lacks a return after the drop). -/
theorem C4_relay_cap_exceeded :
    sysFullRelay.node.relayMap.length = MAX_RELAYS ∧
    (addClient 777 pidExtraClient sysFullRelay).node.relayMap.length = MAX_RELAYS + 1 ∧
    777 ∈ (addClient 777 pidExtraClient sysFullRelay).drops := by
  refine ⟨by decide, by decide, by decide⟩

/-- C6: dropping a routing peer that lies in our close-group range
triggers no churn: the peer (name 22) is in range before the drop and is
removed from the table, yet the drop step sends nothing and emits no
Churn event (the churn loop in dropped_routing_node_connection is empty in
the source). -/
theorem C6_no_churn_on_close_group_drop :
    nameInRange env0 runGroupConnected.node 22 = true ∧
    runGroupConnected.node.routingTable.size = 2 ∧
    runAfterDrop.node.routingTable.size = 1 ∧
    runAfterDrop.events = runGroupConnected.events ∧
    runAfterDrop.sends = runGroupConnected.sends := by
  exact ⟨rfl, rfl, rfl, rfl, rfl⟩

/-- C9: the connection-token counter does return zero.  The call handing
out token 2^32 - 1 wraps the counter to zero, and because line 1071 of the
source compares instead of assigning, the following call returns the
reserved token zero. -/
theorem C9_zero_token_returned_after_wrap :
    (getConnectionToken nodeAtWrap).1 = 4294967295 ∧
    (getConnectionToken nodeAtWrap).2.connectionCounter = 0 ∧
    (getConnectionToken (getConnectionToken nodeAtWrap).2).1 = 0 := by
  exact ⟨rfl, rfl, rfl⟩

/-- C10 counterexample: the panic branch of send is reachable.  A fresh
Disconnected node that accepts a connection promotes itself (network name
assigned, bootstrap map empty, routing table empty); the first inbound
signed message is forwarded through send, which finds no bootstrap
connection and aborts the process. -/
theorem C10_seed_node_send_panic_reachable :
    runSeedPoke.aborted = true ∧
    runSeedPoke.node.routingTable.size = 0 ∧
    runSeedPoke.node.bootstrapMap = [] := by
  exact ⟨rfl, rfl, rfl⟩

/-- C1 counterexample: a message whose from_authority is a group authority
but whose claimant is a Client address is never inserted into the message
accumulator: at a state with one routing peer the dynamic quorum is
min(1, QUORUM_SIZE) = 1, a single claimant should reach quorum and be
dispatched, yet accumulate drops the message and leaves the node - in
particular the accumulator and the handled filter - unchanged. -/
theorem C1_client_claimant_not_accumulated :
    smClientClaimant.message.fromAuthority.isGroup = true ∧
    smClientClaimant.claimant = .client 77 ∧
    routingTableQuorumSize env0 runOnePeer.node = 1 ∧
    accumulate env0 smClientClaimant runOnePeer.node = (none, runOnePeer.node) := by
  exact ⟨rfl, rfl, rfl, rfl⟩

/-- C3 counterexample: processing the same (message, claimant) pair twice
is not the same as processing it once when the first processing
short-circuits on a data-cache hit: the cache branch returns before the
fingerprint is recorded, so each processing answers the request again (one
further user event per processing). -/
theorem C3_cache_hit_double_processing :
    ¬ (mCachedRequest, Address.client 55) ∈ runCacheOnce.node.claimantMessageFilter ∧
    runCacheOnce.events.length = runCachePrimed.events.length + 1 ∧
    runCacheTwice.events.length = runCacheOnce.events.length + 1 ∧
    runCacheTwice ≠ runCacheOnce := by
  refine ⟨by decide, by decide, by decide, by decide⟩

/-- C8: a Disconnected node with a fresh identity (name = hash of its
signing public key) that accepts an incoming connection promotes itself:
it adopts the name hash(hash(public key)), re-creates an empty routing
table keyed on that name, and moves to the Relocated state. -/
theorem C8_seed_self_promotion (env : Env) (conn : Connection) (s : Sys)
    (hd : s.node.state = .disconnected)
    (hnn : s.node.networkName = none)
    (hrel : s.node.id.relocatedFlag = false)
    (hname : s.node.id.name = env.sha512 s.node.id.key) :
    (handleOnAccept env conn s).node.state = .relocated ∧
    (handleOnAccept env conn s).node.networkName =
      some (env.sha512 (env.sha512 s.node.id.key)) ∧
    (handleOnAccept env conn s).node.routingTable =
      RoutingTable.new (env.sha512 (env.sha512 s.node.id.key)) ∧
    (handleOnAccept env conn s).node.id.name = env.sha512 (env.sha512 s.node.id.key) := by
  obtain ⟨⟨cc, cr, cmf, cf, pic, ma, ra, rc, hm, dc, prn, ⟨key, name, rf⟩,
    st, nn, rt, bm, rm, ao⟩, sends, drops, connects, events, aborted, stopped⟩ := s
  dsimp only at hd hnn hrel hname
  subst hd; subst hnn; subst hrel; subst hname
  exact ⟨rfl, rfl, rfl, rfl⟩

/-- Witness for C8 at the freshly constructed node with key 5 under env0:
the promoted name is sha512(sha512 5). -/
theorem C8_seed_self_promotion_witness :
    (initSys env0 5 false).node.state = .disconnected ∧
    (handleOnAccept env0 1 (initSys env0 5 false)).node.state = .relocated ∧
    (handleOnAccept env0 1 (initSys env0 5 false)).node.networkName =
      some (env0.sha512 (env0.sha512 5)) ∧
    (handleOnAccept env0 1 (initSys env0 5 false)).node.routingTable =
      RoutingTable.new (env0.sha512 (env0.sha512 5)) := by
  have h := C8_seed_self_promotion env0 1 (initSys env0 5 false) rfl rfl rfl rfl
  exact ⟨rfl, h.1, h.2.1, h.2.2.1⟩

theorem foldl_crustSend_sends (w : Wire) (l : List Connection) (s : Sys) :
    l.foldl (fun t c => crustSend c w t) s =
      { s with sends := s.sends ++ l.map (fun c => (c, w)) } := by
  induction l generalizing s with
  | nil => simp
  | cons a rest ih =>
    rw [List.foldl_cons, ih]
    simp [crustSend]

/-- C10 (amended): whenever send runs while the node is not a routing node
and the bootstrap map is non-empty, the panic branch is not taken: the
process does not abort and the signed message goes out on every bootstrap
connection, leaving everything else unchanged.  (The unreachability the
claim asserts for the branch itself fails: see the seed-node
counterexample.) -/
theorem C10_send_bootstrap_no_panic (env : Env) (fuel : Nat) (sm : SignedMessage) (s : Sys)
    (hrt : s.node.routingTable.nodes = []) (hboot : s.node.bootstrapMap ≠ []) :
    (exec env (fuel + 1) (.send sm) s).2 =
      { s with sends := s.sends ++
          s.node.bootstrapMap.map (fun e => (e.1, Wire.signedMsg sm)) } := by
  have hnode : s.node.isNode = false := by
    simp [RoutingNode.isNode, RoutingTable.size, hrt]
  have hne : (s.node.bootstrapMap.map Prod.fst).isEmpty = false := by
    cases hbm : s.node.bootstrapMap with
    | nil => exact absurd hbm hboot
    | cons e l => simp
  have hsc : sendCore env sm s =
      (false, { s with sends := s.sends ++
        s.node.bootstrapMap.map (fun e => (e.1, Wire.signedMsg sm)) }) := by
    unfold sendCore
    rw [hnode]
    dsimp only
    rw [hne, foldl_crustSend_sends]
    simp [List.map_map, Function.comp]
  rw [exec_succ]
  simp only [execBody]
  rw [hsc]
  simp

/-- Witness for C10 (amended): the bootstrapped client scenario state has
an empty routing table and one bootstrap connection; sending there does
not abort and produces exactly the bootstrap-relayed copy. -/
theorem C10_send_bootstrap_no_panic_witness :
    runCachePrimed.node.routingTable.nodes = [] ∧
    runCachePrimed.node.bootstrapMap ≠ [] ∧
    (exec env0 5 (.send smSeed) runCachePrimed).2 =
      { runCachePrimed with sends := runCachePrimed.sends ++
          runCachePrimed.node.bootstrapMap.map (fun e => (e.1, Wire.signedMsg smSeed)) } := by
  refine ⟨rfl, by decide, ?_⟩
  exact C10_send_bootstrap_no_panic env0 4 smSeed runCachePrimed rfl (by decide)

theorem claimantFilter_persists (env : Env) (f : Nat) (sm : SignedMessage)
    (x : RoutingMessage × Address) (s : Sys) (hx : x ∈ s.node.claimantMessageFilter) :
    x ∈ (accumulateAndDispatch env (exec env f) sm
      ((exec env f (.send sm) s).2)).2.node.claimantMessageFilter := by
  have h2 := (exec_nodePres env f (.send sm) s).2.2.1 x hx
  exact (accumulateAndDispatch_nodePres env (exec env f)
    (fun c t => exec_nodePres env f c t) sm _).2.2.1 x h2

/-- C3 (amended): on a node that HAS a network name, a fresh
(message, claimant) pair that misses both the claimant filter and the
handled filter and is NOT served from the data cache is recorded in the
claimant message filter at forwarding time, so any later delivery of the
same pair is rejected by the filter check.  (The claim's unconditional
exactly-once guarantee fails on the cache-hit path - see the caching
counterexample - and the forwarding-time insertion is skipped entirely
when the node has no network name, so no recording is guaranteed there
either.) -/
theorem C3_claimant_dedup (env : Env) (fuel : Nat) (sm : SignedMessage) (s : Sys)
    (hfilter : (sm.message, sm.claimant) ∉ s.node.claimantMessageFilter)
    (hhandled : sm.message ∉ s.node.handledMessages)
    (hcache : (s.node.dataCache.put sm.message).get sm.message = none)
    (hnn : s.node.networkName.isSome = true) :
    (sm.message, sm.claimant) ∈
      (exec env (fuel + 1) (.handleRoutingMessage sm) s).2.node.claimantMessageFilter ∧
    ∀ fuel2, exec env fuel2 (.handleRoutingMessage sm)
        (exec env (fuel + 1) (.handleRoutingMessage sm) s).2 =
      (.error .filterCheckFailed, (exec env (fuel + 1) (.handleRoutingMessage sm) s).2) := by
  have hmem : (sm.message, sm.claimant) ∈
      (exec env (fuel + 1) (.handleRoutingMessage sm) s).2.node.claimantMessageFilter := by
    rw [exec_succ]
    simp only [execBody, SignedMessage.getRoutingMessage, Sys.withNode]
    rw [if_neg hfilter, if_neg hhandled]
    split
    · rename_i content heq
      rw [hcache] at heq
      cases heq
    · rw [if_pos hnn]
      cases hcl : sm.claimant with
      | client key =>
        dsimp only
        exact claimantFilter_persists env fuel sm _ _ (self_mem_filterAdd _ _)
      | node name =>
        dsimp only
        exact claimantFilter_persists env fuel sm _ _ (self_mem_filterAdd _ _)
  exact ⟨hmem, fun fuel2 => handleRoutingMessage_filterHit env fuel2 sm _ hmem⟩

/-- Witness for C3 (amended): the single-peer node processes the seed
message once (fuel 4); the pair lands in the claimant filter and a second
delivery, at any fuel, is rejected unchanged. -/
theorem C3_claimant_dedup_witness :
    ¬ (smSeed.message, smSeed.claimant) ∈ runOnePeer.node.claimantMessageFilter ∧
    (smSeed.message, smSeed.claimant) ∈
      (exec env0 4 (.handleRoutingMessage smSeed) runOnePeer).2.node.claimantMessageFilter ∧
    exec env0 3 (.handleRoutingMessage smSeed)
        (exec env0 4 (.handleRoutingMessage smSeed) runOnePeer).2 =
      (.error .filterCheckFailed,
        (exec env0 4 (.handleRoutingMessage smSeed) runOnePeer).2) := by
  have h := C3_claimant_dedup env0 3 smSeed runOnePeer
    (by decide) (by decide) (by decide) (by decide)
  exact ⟨by decide, h.1, h.2 3⟩

theorem sendConnectRequest_relocated_boot (env : Env) (f : Nat) (peerName : NameType)
    (c : Connection) (bn : NameType) (s : Sys)
    (hst : s.node.state = .relocated)
    (hrt : s.node.routingTable.nodes = [])
    (hboot : s.node.bootstrapMap = [(c, bn)]) :
    exec env (f + 2) (.sendConnectRequest peerName) s =
      (.ok (), { s with sends := s.sends ++
        [(c, .signedMsg (connectRequestMessage s.node.id s.node.acceptingOn bn peerName))] }) := by
  obtain ⟨⟨cc, cr, cmf, cf, pic, ma, ra, rc, hm, dc, prn, id, st, nn, ⟨onm, nds⟩,
    bm, rm, ao⟩, sends, drops, connects, events, aborted, stopped⟩ := s
  dsimp only at hst hrt hboot
  subst hst; subst hrt; subst hboot
  rfl

theorem foldl_sendConnectRequest_boot (env : Env) (f : Nat) (c : Connection) (bn : NameType)
    (peers : List PublicId) :
    ∀ (s : Sys), s.node.state = .relocated → s.node.routingTable.nodes = [] →
      s.node.bootstrapMap = [(c, bn)] →
    peers.foldl (fun t peer => (exec env (f + 2) (.sendConnectRequest peer.name) t).2) s =
      { s with sends := s.sends ++ peers.map (fun peer =>
        (c, Wire.signedMsg
          (connectRequestMessage s.node.id s.node.acceptingOn bn peer.name))) } := by
  induction peers with
  | nil =>
    intro s _ _ _
    simp
  | cons p rest ih =>
    intro s hst hrt hboot
    simp only [List.foldl_cons]
    rw [sendConnectRequest_relocated_boot env f p.name c bn s hst hrt hboot]
    dsimp only
    have hacc := ih { s with sends := s.sends ++
      [(c, Wire.signedMsg (connectRequestMessage s.node.id s.node.acceptingOn bn p.name))] }
      hst hrt hboot
    rw [hacc]
    simp

/-- C7: handle_relocation_response verifies the enclosed original token
against our own signing key (FailedSignature otherwise), requires the
original request to be a RequestNetworkName carrying exactly our public
identity, requires the relocated id to equal our public identity with its
name replaced by the relocated name (BadAuthority otherwise, state
untouched), and only when every check passes records the proposed
relocated name, moves the state to Relocated and sends a Connect request
to every member of the reported close group (over the bootstrap relay,
since the node is not yet a routing node). -/
theorem C7_relocation_response (env : Env) (f : Nat) (relocatedId : PublicId)
    (closeGroupIds : List PublicId) (token : SignedToken) (fromA toA : Authority)
    (c : Connection) (bn : NameType) (s : Sys)
    (hrt : s.node.routingTable.nodes = [])
    (hboot : s.node.bootstrapMap = [(c, bn)]) :
    (token.verifySignature s.node.id.key = false →
      exec env (f + 3) (.handleRelocationResponse relocatedId closeGroupIds token fromA toA) s
        = (.error .failedSignature, s)) ∧
    (token.verifySignature s.node.id.key = true →
      (∀ originalPublicId, token.request.content ≠
        .internalRequest (.requestNetworkName originalPublicId)) →
      exec env (f + 3) (.handleRelocationResponse relocatedId closeGroupIds token fromA toA) s
        = (.error .unknownMessageType, s)) ∧
    (∀ originalPublicId,
      token.verifySignature s.node.id.key = true →
      token.request.content = .internalRequest (.requestNetworkName originalPublicId) →
      (PublicId.new s.node.id ≠ originalPublicId ∨
        (PublicId.new s.node.id).setName relocatedId.name ≠ relocatedId) →
      exec env (f + 3) (.handleRelocationResponse relocatedId closeGroupIds token fromA toA) s
        = (.error .badAuthority, s)) ∧
    (∀ originalPublicId,
      token.verifySignature s.node.id.key = true →
      token.request.content = .internalRequest (.requestNetworkName originalPublicId) →
      PublicId.new s.node.id = originalPublicId →
      (PublicId.new s.node.id).setName relocatedId.name = relocatedId →
      exec env (f + 3) (.handleRelocationResponse relocatedId closeGroupIds token fromA toA) s
        = (.ok (), { s with
            node := { s.node with proposedRelocatedName := some relocatedId.name, state := .relocated },
            sends := s.sends ++ closeGroupIds.map (fun peer =>
              (c, Wire.signedMsg (connectRequestMessage s.node.id s.node.acceptingOn
                bn peer.name))) })) := by
  refine ⟨?_, ?_, ?_, ?_⟩
  · intro hsig
    rw [exec_succ]
    simp only [execBody]
    rw [hsig]
    simp
  · intro hsig hne
    rw [exec_succ]
    simp only [execBody, SignedMessage.newFromToken, SignedMessage.getRoutingMessage, hsig,
      Bool.not_true, Bool.false_eq_true, if_false]
  · intro originalPublicId hsig hco hbad
    rw [exec_succ]
    simp only [execBody, SignedMessage.newFromToken, SignedMessage.getRoutingMessage]
    rw [hsig]
    simp only [Bool.not_true, Bool.false_eq_true, if_false]
    rw [hco]
    dsimp only
    rcases hbad with h1 | h2
    · rw [if_pos h1]
    · by_cases h1 : PublicId.new s.node.id = originalPublicId
      · rw [if_neg (not_not_intro h1), if_pos h2]
      · rw [if_pos h1]
  · intro originalPublicId hsig hco heq1 heq2
    rw [exec_succ]
    simp only [execBody, SignedMessage.newFromToken, SignedMessage.getRoutingMessage]
    rw [hsig]
    simp only [Bool.not_true, Bool.false_eq_true, if_false]
    rw [hco]
    dsimp only
    rw [if_neg (not_not_intro heq1), if_neg (not_not_intro heq2)]
    simp only [Sys.withNode]
    rw [foldl_sendConnectRequest_boot env f c bn closeGroupIds
      { s with node := { s.node with proposedRelocatedName := some relocatedId.name, state := .relocated } }
      rfl hrt hboot]

/-- Witness for C7 at the bootstrapped client scenario: a correctly signed
RelocatedNetworkName response carrying our renamed identity relocates the
node and sends a Connect request for each of the two reported close-group
peers over the single bootstrap connection; the same response signed with
a wrong key fails with FailedSignature and leaves the state untouched. -/
theorem C7_relocation_response_witness :
    exec env0 5 (.handleRelocationResponse
        { name := 777, signKey := 5, isNodeFlag := false } [pid1, pid2]
        (.mk (.mk (.naeManager 40) (.naeManager 1005)
          (.internalRequest (.requestNetworkName
            { name := 1005, signKey := 5, isNodeFlag := false }))) 5)
        (.naeManager 777) (.clientManager 1005)) runCachePrimed =
      (.ok (), { runCachePrimed with
        node := { runCachePrimed.node with proposedRelocatedName := some 777, state := .relocated },
        sends := runCachePrimed.sends ++ [pid1, pid2].map (fun peer =>
          (1, Wire.signedMsg (connectRequestMessage runCachePrimed.node.id
            runCachePrimed.node.acceptingOn 30 peer.name))) }) ∧
    exec env0 5 (.handleRelocationResponse
        { name := 777, signKey := 5, isNodeFlag := false } [pid1, pid2]
        (.mk (.mk (.naeManager 40) (.naeManager 1005)
          (.internalRequest (.requestNetworkName
            { name := 1005, signKey := 5, isNodeFlag := false }))) 6)
        (.naeManager 777) (.clientManager 1005)) runCachePrimed =
      (.error .failedSignature, runCachePrimed) := by
  constructor
  · exact (C7_relocation_response env0 2 _ [pid1, pid2] _ _ _ 1 30 runCachePrimed rfl rfl).2.2.2
      { name := 1005, signKey := 5, isNodeFlag := false } rfl rfl rfl rfl
  · exact (C7_relocation_response env0 2 _ [pid1, pid2] _ _ _ 1 30 runCachePrimed rfl rfl).1 rfl

theorem mapLookup_mapInsert {α β : Type} [DecidableEq α] (k : α) (v : β)
    (l : List (α × β)) : mapLookup k (mapInsert k v l).2 = some v := by
  induction l with
  | nil => simp [mapInsert, mapLookup]
  | cons e rest ih =>
    by_cases h : e.1 = k
    · simp [mapInsert, h, mapLookup]
    · simp [mapInsert, h, mapLookup, ih]

theorem accumulate_group_node (env : Env) (sm : SignedMessage) (n : RoutingNode)
    (nm : NameType) (hclaim : sm.claimant = .node nm)
    (hgroup : sm.message.fromAuthority.isGroup = true)
    (hnorel : isRelocationResponse sm.message = false) :
    accumulate env sm n =
      (if ((n.messageAccumulator.setQuorumSize (routingTableQuorumSize env n)).add
            sm.message).1
       then (some (sm.message, .noneT),
         { n with messageAccumulator := ((n.messageAccumulator.setQuorumSize (routingTableQuorumSize env n)).add sm.message).2, handledMessages := filterAdd sm.message n.handledMessages })
       else (none,
         { n with messageAccumulator := ((n.messageAccumulator.setQuorumSize (routingTableQuorumSize env n)).add sm.message).2 })) := by
  unfold accumulate
  dsimp only
  rw [hgroup, hnorel]
  simp only [Bool.not_true, Bool.or_false, Bool.false_eq_true, if_false]
  rw [hclaim]

/-- C1 (amended): a group-source signed message that is not a
RelocatedNetworkName response and whose claimant is a NODE address is
inserted into the message accumulator under the dynamic quorum
min(routing-table size, QUORUM_SIZE): the add's verdict is exactly
whether the incremented claimant count reaches that quorum; below quorum
the stage returns NotEnoughSignatures retaining only the incremented
accumulator (no event, nothing handled); at quorum the routing message
enters the handled-messages filter, after which any re-delivery is
rejected unchanged.  (The claim's unconditional form fails for Client
claimants: see the dropped-client counterexample.) -/
theorem C1_group_accumulation (env : Env) (f : Nat) (sm : SignedMessage) (nm : NameType)
    (s : Sys)
    (hclaim : sm.claimant = .node nm)
    (hgroup : sm.message.fromAuthority.isGroup = true)
    (hnorel : isRelocationResponse sm.message = false)
    (hauth : authorizedFor env s.node sm.message = true) :
    ((s.node.messageAccumulator.setQuorumSize (routingTableQuorumSize env s.node)).add
        sm.message).1
      = decide (s.node.messageAccumulator.count sm.message + 1
          ≥ min s.node.routingTable.size env.quorumSize) ∧
    ((s.node.messageAccumulator.setQuorumSize (routingTableQuorumSize env s.node)).add
        sm.message).2.count sm.message
      = s.node.messageAccumulator.count sm.message + 1 ∧
    (((s.node.messageAccumulator.setQuorumSize (routingTableQuorumSize env s.node)).add
        sm.message).1 = false →
      accumulateAndDispatch env (exec env f) sm s =
        (.error .notEnoughSignatures,
         { s with node := { s.node with messageAccumulator := ((s.node.messageAccumulator.setQuorumSize (routingTableQuorumSize env s.node)).add sm.message).2 } })) ∧
    (((s.node.messageAccumulator.setQuorumSize (routingTableQuorumSize env s.node)).add
        sm.message).1 = true →
      sm.message ∈ (accumulateAndDispatch env (exec env f) sm s).2.node.handledMessages) ∧
    (∀ fuel2 t, sm.message ∈ t.node.handledMessages →
      exec env fuel2 (.handleRoutingMessage sm) t = (.error .filterCheckFailed, t)) := by
  refine ⟨rfl, ?_, ?_, ?_, fun fuel2 t ht => handleRoutingMessage_handledHit env fuel2 sm t ht⟩
  · unfold Accumulator.add Accumulator.count
    dsimp only
    rw [mapLookup_mapInsert]
    rfl
  · intro hA1
    unfold accumulateAndDispatch
    dsimp only
    simp only [SignedMessage.getRoutingMessage]
    rw [hauth]
    simp only [Bool.not_true, Bool.false_eq_true, if_false]
    rw [accumulate_group_node env sm s.node nm hclaim hgroup hnorel, hA1]
    simp only [Bool.false_eq_true, if_false]
  · intro hA1
    unfold accumulateAndDispatch
    dsimp only
    simp only [SignedMessage.getRoutingMessage]
    rw [hauth]
    simp only [Bool.not_true, Bool.false_eq_true, if_false]
    rw [accumulate_group_node env sm s.node nm hclaim hgroup hnorel, hA1]
    simp only [if_true]
    refine (dispatchContent_nodePres env (exec env f) (fun c t => exec_nodePres env f c t)
      sm.message sm.claimant (ourAuthorityOf env s.node sm.message) sm.message .noneT
      _).2.2.2 sm.message ?_
    exact self_mem_filterAdd _ _

/-- Witness for C1 (amended) at the single-peer node: the dynamic quorum
is min(1, QUORUM_SIZE) = 1, so the first node-claimant copy of the group
message reaches quorum, the message lands in the handled filter, and a
re-delivery to the resulting state is rejected unchanged. -/
theorem C1_group_accumulation_witness :
    ((runOnePeer.node.messageAccumulator.setQuorumSize
        (routingTableQuorumSize env0 runOnePeer.node)).add smNodeClaimant.message).1 = true ∧
    smNodeClaimant.message ∈
      (accumulateAndDispatch env0 (exec env0 3) smNodeClaimant runOnePeer).2.node.handledMessages ∧
    exec env0 3 (.handleRoutingMessage smNodeClaimant)
        (accumulateAndDispatch env0 (exec env0 3) smNodeClaimant runOnePeer).2 =
      (.error .filterCheckFailed,
        (accumulateAndDispatch env0 (exec env0 3) smNodeClaimant runOnePeer).2) := by
  have h := C1_group_accumulation env0 3 smNodeClaimant 21 runOnePeer rfl rfl rfl (by decide)
  refine ⟨by decide, h.2.2.2.1 (by decide), ?_⟩
  exact h.2.2.2.2 3 _ (h.2.2.2.1 (by decide))

end Routing
